import Mathlib

/-!
Verification development for the Sudoku engine in `src/sudoku.rs`.

The board is a 9×9 grid of digits 0–9 (0 = empty), embedded as a list of
rows (`List (List Nat)`).  Machine integers (`u8`, `usize`) are embedded as
`Nat`: no arithmetic in the engine can overflow (values stay below 256).
Randomness (`rand::thread_rng`) is embedded by passing the drawn data
explicitly: a shuffled digit list per recursive call of `fill_remaining`,
the three shuffled digit lists of `fill_diagonals`, the shuffled coordinate
list of `generate_puzzle`/`hint`, and the choice function of `num_holes`.
Theorems quantify over these inputs under the hypotheses the library
guarantees (the lists are permutations of what the source shuffles).
-/

abbrev Board := List (List Nat)

namespace Board

def SIZE : Nat := 9
def SUBGRID_SIZE : Nat := 3

/-- Read `grid[r][c]` (out-of-range reads return 0; the source never
performs them). -/
def getCell (b : Board) (r c : Nat) : Nat := (b.getD r []).getD c 0

/-- Write `grid[r][c] = v` (out-of-range writes are dropped; the source
never performs them). -/
def setCell (b : Board) (r c v : Nat) : Board := b.set r ((b.getD r []).set c v)

/-- `Board::is_valid`: value must not already appear in the row, the column,
or the containing 3×3 subgrid. -/
def is_valid (b : Board) (row col value : Nat) : Bool :=
  -- Check row and column
  ((List.range SIZE).all fun i =>
    !(getCell b row i == value) && !(getCell b i col == value)) &&
  -- Check 3x3 subgrid
  (let start_row := row / SUBGRID_SIZE * SUBGRID_SIZE
   let start_col := col / SUBGRID_SIZE * SUBGRID_SIZE
   (List.range SUBGRID_SIZE).all fun i =>
     (List.range SUBGRID_SIZE).all fun j =>
       !(getCell b (start_row + i) (start_col + j) == value))

/-- The scan of `solve_with_limit` for the first empty cell, in row-major
order, exactly as the double loop in the source finds it. -/
def findEmpty (b : Board) : Option (Nat × Nat) :=
  (List.range SIZE).findSome? fun row =>
    (List.range SIZE).findSome? fun col =>
      if getCell b row col = 0 then some (row, col) else none

/-- The digit loop of `solve_with_limit`: try each digit, recurse through
`f` (the solver at one less fuel), thread the solution counter, and stop as
soon as a recursive call reports the limit was reached. -/
def digitLoop (f : Board → Nat → Nat × Bool) (b : Board) (row col : Nat) :
    List Nat → Nat → Nat × Bool
  | [], count => (count, false)
  | num :: rest, count =>
    if is_valid b row col num then
      match f (setCell b row col num) count with
      | (count2, true) => (count2, true)
      | (count2, false) => digitLoop f b row col rest count2
    else digitLoop f b row col rest count

/-- `Board::solve_with_limit`, with an explicit fuel argument for the
recursion.  Every recursive call of the source fills the first empty cell,
so the recursion depth is bounded by the number of empty cells; fuel
`SIZE * SIZE + 1 = 82` therefore always suffices (`count_solutions` below).
Returns the updated solution counter and the short-circuit flag
(`*count >= limit`). -/
def solveWithLimit : Nat → Board → Nat → Nat → Nat × Bool
  | 0, _, count, _ => (count, false)
  | fuel + 1, b, count, limit =>
    match findEmpty b with
    | none => (count + 1, decide (limit ≤ count + 1))
    | some (row, col) =>
      digitLoop (fun b2 c2 => solveWithLimit fuel b2 c2 limit) b row col
        ((List.range SIZE).map (· + 1)) count

/-- `Board::count_solutions`. -/
def count_solutions (b : Board) (limit : Nat) : Nat :=
  (solveWithLimit (SIZE * SIZE + 1) b 0 limit).1

/-- `Board::generate_puzzle`: walk the first `num_holes` positions of the
shuffled coordinate list, clear each, and revert the clearing whenever the
bounded solution count of the clone is not exactly 1.  (`backup` is read
from `self`, the seed board, exactly as in the source.) -/
def generate_puzzle (b : Board) (positions : List (Nat × Nat))
    (num_holes : Nat) : Board :=
  (positions.take num_holes).foldl
    (fun puzzle pos =>
      let backup := getCell b pos.1 pos.2
      let dug := setCell puzzle pos.1 pos.2 0
      if count_solutions dug 2 ≠ 1 then setCell dug pos.1 pos.2 backup
      else dug)
    b

/-- `Board::fill_box` at `(row, col)` with the shuffled digit list
`numbers`: the source pops from the end of the shuffled vector, so cell
`(row+i, col+j)` receives `numbers.reverse[3*i+j]`. -/
def fill_box (b : Board) (row col : Nat) (numbers : List Nat) : Board :=
  (List.range SUBGRID_SIZE).foldl
    (fun acc i =>
      (List.range SUBGRID_SIZE).foldl
        (fun acc2 j =>
          setCell acc2 (row + i) (col + j)
            (numbers.reverse.getD (SUBGRID_SIZE * i + j) 0))
        acc)
    b

/-- `Board::fill_diagonals`: boxes at (0,0), (3,3), (6,6), each with its own
shuffled digit list. -/
def fill_diagonals (b : Board) (n0 n1 n2 : List Nat) : Board :=
  fill_box (fill_box (fill_box b 0 0 n0) 3 3 n1) 6 6 n2

/-- The digit loop of `fill_remaining`: try each digit of the shuffled
list, recurse through `f` (the filler at the next column and one less
fuel), and on failure continue from the original board (the source resets
the cell to 0), keeping the random draws already consumed. -/
def fillLoop (f : Board → Nat → Bool × Board × Nat) (b : Board)
    (row col : Nat) : List Nat → Nat → Bool × Board × Nat
  | [], k => (false, b, k)
  | num :: rest, k =>
    if is_valid b row col num then
      match f (setCell b row col num) k with
      | (true, b2, k2) => (true, b2, k2)
      | (false, _, k2) => fillLoop f b row col rest k2
    else fillLoop f b row col rest k

/-- `Board::fill_remaining`, with an explicit fuel argument.  Every
recursive call strictly decreases `(9 - row) * 10 - col`, which starts at
90 for the root call `fill_remaining(0, 0)` and stays positive, so fuel 90
always suffices (`generate` below).  `rng k` is the digit list shuffled by
the k-th invocation (the source shuffles on entry of every call, even the
bookkeeping ones, so every call consumes one draw); the final `Nat` is the
next unused draw index. -/
def fill_remaining (rng : Nat → List Nat) :
    Nat → Nat → Nat → Board → Nat → Bool × Board × Nat
  | 0, _, _, b, k => (false, b, k)
  | fuel + 1, row, col, b, k =>
    let numbers := rng k
    -- Board filled
    if row = SIZE - 1 ∧ col = SIZE then (true, b, k + 1)
    -- Move to next row
    else if col = SIZE then fill_remaining rng fuel (row + 1) 0 b (k + 1)
    -- Skip filled cells
    else if getCell b row col ≠ 0 then
      fill_remaining rng fuel row (col + 1) b (k + 1)
    else
      fillLoop (fun b2 k2 => fill_remaining rng fuel row (col + 1) b2 k2)
        b row col numbers (k + 1)

/-- The all-zero board `Board::default()`. -/
def empty : Board := List.replicate SIZE (List.replicate SIZE 0)

/-- `Board::generate`: seed the three diagonal boxes, then fill the rest by
randomized backtracking.  As in the source, the boolean result of
`fill_remaining` is discarded and the board is returned as mutated. -/
def generate (n0 n1 n2 : List Nat) (rng : Nat → List Nat) : Board :=
  (fill_remaining rng 90 0 0 (fill_diagonals empty n0 n1 n2) 0).2.1

end Board

/-! ## The puzzle session (`Sudoku` in the source)

`Instant` is embedded as a `Nat` timestamp; operations that read the clock
take an explicit `now` argument.  `Duration` is embedded as a `Nat` count
of nanoseconds (`as_secs` divides by 10^9, `from_secs` multiplies).
`start.unwrap().elapsed()` becomes `now - start`; the `unwrap` cannot fail
in the source (`start` is `Some` whenever the state is `Running`), and the
embedding uses `getD now` (yielding 0 elapsed) for the unreachable case. -/

def MAX_CHECKS : Nat := 3
def MAX_HINTS : Nat := 3

structure Cell where
  value : Nat
  flags : Nat
deriving DecidableEq

def CELL_CHECKED : Nat := 1
def CELL_CORRECT : Nat := 2
def CELL_WRITABLE : Nat := 4

def Cell.new (value : Nat) : Cell :=
  ⟨value, if value = 0 then CELL_WRITABLE else 0⟩

/-- `flags &= !CELL_CHECKED; flags &= !CELL_CORRECT` (`!` on `u8` is
complement, i.e. `&&& (255 - bit)`). -/
def Cell.uncheck (c : Cell) : Cell :=
  ⟨c.value, c.flags &&& (255 - CELL_CHECKED) &&& (255 - CELL_CORRECT)⟩

def Cell.check (c : Cell) (correct : Bool) : Cell :=
  let f := c.flags ||| CELL_CHECKED
  ⟨c.value, if correct then f ||| CELL_CORRECT else f⟩

def Cell.writable (c : Cell) : Bool := c.flags &&& CELL_WRITABLE != 0

def Cell.checked (c : Cell) : Bool := c.flags &&& CELL_CHECKED != 0

def Cell.correct (c : Cell) : Bool := c.flags &&& CELL_CORRECT != 0

inductive GameState
  | Running
  | Paused
  | Solved
  | Won
deriving DecidableEq

inductive Difficulty
  | Easy
  | Medium
  | Hard
  | Expert
deriving DecidableEq

/-- `Difficulty::num_holes`: draw from a half-open range.  The uniform
draw `(lo..hi).choose(rng).unwrap()` is embedded as an arbitrary choice
function applied to the list of the range's elements; theorems assume only
that `choose` picks a member of a nonempty list. -/
def Difficulty.num_holes (d : Difficulty) (choose : List Nat → Nat) : Nat :=
  match d with
  | .Easy => choose (List.range' 45 5)
  | .Medium => choose (List.range' 50 5)
  | .Hard => choose (List.range' 55 5)
  | .Expert => choose (List.range' 60 5)

/-- The inclusive bounds of the hole-count ranges stated per difficulty. -/
def Difficulty.holesLo : Difficulty → Nat
  | .Easy => 45
  | .Medium => 50
  | .Hard => 55
  | .Expert => 60

def Difficulty.holesHi : Difficulty → Nat
  | .Easy => 49
  | .Medium => 54
  | .Hard => 59
  | .Expert => 64

structure Move where
  x : Nat
  y : Nat
  old : Nat
deriving DecidableEq

structure Sudoku where
  grid : Nat → Nat → Cell      -- grid y x is the source's grid[y][x]
  solution : Nat → Nat → Nat
  state : GameState
  movements : List Move        -- head = most recent move (Vec push/pop at the end)
  start : Option Nat
  elapsed : Nat                -- nanoseconds
  difficulty : Difficulty
  checks : Nat
  hints : Nat

namespace Sudoku

/-- Pointwise update of a grid function at `(y, x)` (the in-place array
store of the source). -/
def updateGrid (g : Nat → Nat → Cell) (y x : Nat) (c : Cell) :
    Nat → Nat → Cell :=
  fun y2 x2 => if y2 = y ∧ x2 = x then c else g y2 x2

def is_paused (s : Sudoku) : Bool := s.state = GameState.Paused

def is_running (s : Sudoku) : Bool := s.state = GameState.Running

/-- `Sudoku::elapsed`. -/
def elapsedAt (s : Sudoku) (now : Nat) : Nat :=
  match s.state with
  | GameState.Running => s.elapsed + (now - s.start.getD now)
  | _ => s.elapsed

/-- `Sudoku::at`. -/
def atCell (s : Sudoku) (x y : Nat) : Cell := s.grid y x

/-- `Sudoku::writable`. -/
def writable (s : Sudoku) (x y : Nat) : Bool :=
  (s.atCell x y).flags &&& CELL_WRITABLE != 0

def can_check (s : Sudoku) : Bool := s.is_running && decide (s.checks < MAX_CHECKS)

def can_hint (s : Sudoku) : Bool := s.is_running && decide (s.hints < MAX_HINTS)

/-- `Sudoku::complete`. -/
def complete (s : Sudoku) (now : Nat) : Sudoku :=
  if ¬ s.is_running then s
  else
    let grid2 := fun y x =>
      if y < 9 ∧ x < 9 ∧ s.writable x y then
        let cell := s.grid y x
        let sol := s.solution y x
        let is_correct := cell.value = 0 ∨ cell.value = sol
        Cell.check ⟨sol, cell.flags⟩ is_correct
      else s.grid y x
    { s with grid := grid2, elapsed := s.elapsedAt now, state := GameState.Solved }

/-- A cell the loop of `Sudoku::check` does not skip: writable, filled,
and not yet checked. -/
def eligible (s : Sudoku) (i j : Nat) : Bool :=
  (s.grid i j).writable && !((s.grid i j).value == 0) && !(s.grid i j).checked

/-- `Sudoku::check`. -/
def check (s : Sudoku) : Sudoku :=
  if ¬ s.can_check then s
  else
    let grid2 := fun i j =>
      if i < 9 ∧ j < 9 ∧ s.eligible i j then
        (s.grid i j).check ((s.grid i j).value == s.solution i j)
      else s.grid i j
    let checkedAny := (List.range 9).any fun i => (List.range 9).any fun j =>
      s.eligible i j
    { s with grid := grid2,
             checks := if checkedAny then s.checks + 1 else s.checks }

/-- The loop of `Sudoku::hint` over the shuffled positions: fill the first
writable empty cell with the solution value and stop. -/
def hintLoop (s : Sudoku) : List (Nat × Nat) → Sudoku
  | [] => s
  | (y, x) :: rest =>
    if (s.grid y x).writable && (s.grid y x).value == 0 then
      { s with
        grid := updateGrid s.grid y x
          (Cell.check ⟨s.solution y x, (s.grid y x).flags⟩ true),
        hints := s.hints + 1 }
    else hintLoop s rest

/-- `Sudoku::hint`, with the shuffled coordinate list passed explicitly
(elements are `(y, x)` as in the source's destructuring). -/
def hint (s : Sudoku) (positions : List (Nat × Nat)) : Sudoku :=
  if ¬ s.can_hint then s else hintLoop s positions

/-- `Sudoku::toggle_pause`. -/
def toggle_pause (s : Sudoku) (now : Nat) : Sudoku :=
  match s.state with
  | GameState.Paused => { s with start := some now, state := GameState.Running }
  | GameState.Running =>
    { s with elapsed := s.elapsed + (now - s.start.getD now),
             start := none, state := GameState.Paused }
  | _ => s

/-- `Sudoku::pause`. -/
def pause (s : Sudoku) (now : Nat) : Sudoku :=
  if s.is_running then s.toggle_pause now else s

/-- `Sudoku::undo_last_move`: returns the new session and the popped
coordinate. -/
def undo_last_move (s : Sudoku) : Sudoku × Option (Nat × Nat) :=
  if ¬ s.is_running then (s, none)
  else
    match s.movements with
    | [] => (s, none)
    | mv :: rest =>
      ({ s with movements := rest,
                grid := updateGrid s.grid mv.y mv.x
                  ⟨mv.old, (s.grid mv.y mv.x).flags⟩ },
       some (mv.x, mv.y))

/-- `Sudoku::is_solved`. -/
def is_solved (s : Sudoku) : Bool :=
  (List.range 9).all fun y => (List.range 9).all fun x =>
    (s.grid y x).value == s.solution y x

/-- `Sudoku::update_cell`. -/
def update_cell (s : Sudoku) (x y value now : Nat) : Sudoku :=
  if ¬ (s.is_running && s.writable x y) then s
  else
    let old := (s.grid y x).value
    let s1 :=
      { s with
        grid := updateGrid s.grid y x (Cell.uncheck ⟨value, (s.grid y x).flags⟩),
        movements := ⟨x, y, old⟩ :: s.movements }
    if s1.is_solved then
      { s1 with elapsed := s1.elapsedAt now, state := GameState.Won }
    else s1

/-- `Sudoku::clear_board`. -/
def clear_board (s : Sudoku) : Sudoku :=
  if ¬ s.is_running then s
  else
    { s with grid := fun y x =>
        if y < 9 ∧ x < 9 ∧ (s.grid y x).writable then ⟨0, (s.grid y x).flags⟩
        else s.grid y x }

/-- `Sudoku::generate`: build the solution board, dig the puzzle, wrap the
digits in `Cell::new`; the remaining fields come from `Default`. -/
def generate (difficulty : Difficulty) (choose : List Nat → Nat)
    (n0 n1 n2 : List Nat) (rng : Nat → List Nat)
    (positions : List (Nat × Nat)) (now : Nat) : Sudoku :=
  let solution := Board.generate n0 n1 n2 rng
  let puzzle := Board.generate_puzzle solution positions
    (difficulty.num_holes choose)
  { grid := fun y x => Cell.new (Board.getCell puzzle y x),
    solution := fun y x => Board.getCell solution y x,
    state := GameState.Running, movements := [], start := some now,
    elapsed := 0, difficulty := difficulty, checks := 0, hints := 0 }

/-- Number of empty cells of the session's puzzle grid. -/
def countEmpty (s : Sudoku) : Nat :=
  ((List.range 81).filter fun i => (s.grid (i / 9) (i % 9)).value = 0).length

end Sudoku

/-! ## Persistence (`Save`, `Sudoku::save`, `Sudoku::load`)

`bincode::serialize` with its default configuration writes fixed-width
little-endian integers and encodes a fieldless enum variant as its `u32`
index.  The `Save` snapshot therefore serializes to exactly 257 bytes:
162 grid bytes (value, flags per cell, row-major), 81 solution bytes,
4 difficulty-tag bytes, 8 elapsed-seconds bytes, 1 checks byte and
1 hints byte.  Bytes are embedded as `Nat`s below 256. -/

structure Save where
  grid : Nat → Nat → Cell
  solution : Nat → Nat → Nat
  difficulty : Difficulty
  elapsed : Nat    -- whole seconds (u64)
  checks : Nat
  hints : Nat

def diffTag : Difficulty → Nat
  | .Easy => 0
  | .Medium => 1
  | .Hard => 2
  | .Expert => 3

def tagDiff : Nat → Difficulty
  | 0 => .Easy
  | 1 => .Medium
  | 2 => .Hard
  | _ => .Expert

/-- The i-th byte of the bincode encoding of a `Save`. -/
def saveByte (sv : Save) (i : Nat) : Nat :=
  if i < 162 then
    let p := i / 2
    let cell := sv.grid (p / 9) (p % 9)
    if i % 2 = 0 then cell.value % 256 else cell.flags % 256
  else if i < 243 then sv.solution ((i - 162) / 9) ((i - 162) % 9) % 256
  else if i < 247 then diffTag sv.difficulty / 256 ^ (i - 243) % 256
  else if i < 255 then sv.elapsed / 256 ^ (i - 247) % 256
  else if i = 255 then sv.checks % 256
  else sv.hints % 256

/-- `bincode::serialize(&save)`. -/
def saveBytes (sv : Save) : List Nat :=
  (List.range 257).map (saveByte sv)

/-- `bincode::deserialize::<Save>(bytes)`: succeeds on a well-formed
257-byte encoding (the enum tag must name one of the four variants). -/
def decodeSave (bytes : List Nat) : Option Save :=
  if bytes.length = 257 ∧ bytes.getD 243 0 < 4 ∧ bytes.getD 244 0 = 0 ∧
     bytes.getD 245 0 = 0 ∧ bytes.getD 246 0 = 0 then
    some
      { grid := fun y x =>
          if y < 9 ∧ x < 9 then
            ⟨bytes.getD (2 * (9 * y + x)) 0, bytes.getD (2 * (9 * y + x) + 1) 0⟩
          else ⟨0, 0⟩,
        solution := fun y x =>
          if y < 9 ∧ x < 9 then bytes.getD (162 + (9 * y + x)) 0 else 0,
        difficulty := tagDiff (bytes.getD 243 0),
        elapsed := (List.range 8).foldr
          (fun t acc => acc * 256 + bytes.getD (247 + t) 0) 0,
        checks := bytes.getD 255 0,
        hints := bytes.getD 256 0 }
  else none

namespace Sudoku

/-- The `Save` value built by `Sudoku::save`. -/
def toSave (s : Sudoku) (now : Nat) : Save :=
  { grid := s.grid, solution := s.solution, difficulty := s.difficulty,
    elapsed := s.elapsedAt now / 1000000000,
    checks := s.checks, hints := s.hints }

/-- `Sudoku::save` (serialization itself cannot fail). -/
def save (s : Sudoku) (now : Nat) : List Nat := saveBytes (s.toSave now)

/-- `Sudoku::from_save`: remaining fields from `Default` (state `Running`,
no movements), the clock restarted at `now`. -/
def from_save (sv : Save) (now : Nat) : Sudoku :=
  { hints := sv.hints, checks := sv.checks, difficulty := sv.difficulty,
    start := some now, elapsed := sv.elapsed * 1000000000,
    grid := sv.grid, solution := sv.solution,
    state := GameState.Running, movements := [] }

/-- `Sudoku::load`. -/
def load (bytes : List Nat) (now : Nat) : Option Sudoku :=
  (decodeSave bytes).map (fun sv => from_save sv now)

end Sudoku

/-! ## Specification-side predicates -/

/-- The digit list `1..=9` that the source shuffles. -/
def digits19 : List Nat := List.range' 1 9

/-- The 81 coordinates in the order the source collects them before
shuffling. -/
def allCoords : List (Nat × Nat) :=
  (List.range 9).flatMap fun r => (List.range 9).map fun c => (r, c)

namespace Board

/-- The 9 values of row `r`. -/
def rowList (b : Board) (r : Nat) : List Nat :=
  (List.range 9).map fun c => getCell b r c

/-- The 9 values of column `c`. -/
def colList (b : Board) (c : Nat) : List Nat :=
  (List.range 9).map fun r => getCell b r c

/-- The 9 values of the 3×3 box with box-coordinates `(br, bc)`, row-major
(entry `t` is the box cell at offsets `(t / 3, t % 3)`). -/
def boxList (b : Board) (br bc : Nat) : List Nat :=
  (List.range 9).map fun t => getCell b (br * 3 + t / 3) (bc * 3 + t % 3)

/-- A fully solved, valid board: every row, column and box is a
permutation of 1–9. -/
def isSolvedBoard (b : Board) : Prop :=
  (∀ r < 9, (rowList b r).Perm digits19) ∧
  (∀ c < 9, (colList b c).Perm digits19) ∧
  (∀ br < 3, ∀ bc < 3, (boxList b br bc).Perm digits19)

instance : DecidablePred isSolvedBoard := fun _ => by
  unfold isSolvedBoard; infer_instance

/-- `S` agrees with `b` on every filled cell of `b`. -/
def ExtendsTo (b S : Board) : Prop :=
  ∀ r < 9, ∀ c < 9, getCell b r c ≠ 0 → getCell S r c = getCell b r c

instance : ∀ b S, Decidable (ExtendsTo b S) := fun _ _ => by
  unfold ExtendsTo; infer_instance

/-- A 9×9 board shape (9 rows of 9 entries). -/
def Shaped (b : Board) : Prop := b.length = 9 ∧ ∀ row ∈ b, row.length = 9

instance : ∀ b, Decidable (Shaped b) := fun _ => by
  unfold Shaped; infer_instance

/-- Two distinct in-range cells that share a row, a column or a box hold
distinct values unless empty. -/
def Consistent (b : Board) : Prop :=
  ∀ r1 < 9, ∀ c1 < 9, ∀ r2 < 9, ∀ c2 < 9,
    (r1, c1) ≠ (r2, c2) →
    (r1 = r2 ∨ c1 = c2 ∨ (r1 / 3 = r2 / 3 ∧ c1 / 3 = c2 / 3)) →
    getCell b r1 c1 ≠ 0 →
    getCell b r1 c1 ≠ getCell b r2 c2

/-- Every in-range cell is empty or holds a digit 1–9. -/
def ValuesIn19 (b : Board) : Prop :=
  ∀ r < 9, ∀ c < 9, getCell b r c = 0 ∨ getCell b r c ∈ digits19

/-- Every in-range cell is filled. -/
def Full (b : Board) : Prop :=
  ∀ r < 9, ∀ c < 9, getCell b r c ≠ 0

instance : ∀ b, Decidable (Full b) := fun _ => by
  unfold Full; infer_instance

/-- Number of empty in-range cells. -/
def countEmpty (b : Board) : Nat :=
  ((List.range 81).filter fun i => getCell b (i / 9) (i % 9) = 0).length

/-- `value` appears somewhere in row `row`. -/
def appearsInRow (b : Board) (row v : Nat) : Prop := ∃ i < 9, getCell b row i = v

/-- `value` appears somewhere in column `col`. -/
def appearsInCol (b : Board) (col v : Nat) : Prop := ∃ i < 9, getCell b i col = v

/-- `value` appears somewhere in the 3×3 box containing `(row, col)`. -/
def appearsInBox (b : Board) (row col v : Nat) : Prop :=
  ∃ i < 3, ∃ j < 3,
    getCell b (row / 3 * 3 + i) (col / 3 * 3 + j) = v

end Board

/-! ## Concrete data for witnesses and counterexamples -/

/-- A concrete valid solved board (top-left box `[[5,3,4],[6,7,2],[1,9,8]]`
as in the specification's concrete scenario). -/
def wikiBoard : Board :=
  [[5,3,4,6,7,8,9,1,2],
   [6,7,2,1,9,5,3,4,8],
   [1,9,8,3,4,2,5,6,7],
   [8,5,9,7,6,1,4,2,3],
   [4,2,6,8,5,3,7,9,1],
   [7,1,3,9,2,4,8,5,6],
   [9,6,1,5,3,7,2,8,4],
   [2,8,7,4,1,9,6,3,5],
   [3,4,5,2,8,6,1,7,9]]

/-- Digit list that makes `fill_box` reproduce a given box content
(row-major): `fill_box` pops from the end, so reverse the content. -/
def cexBox0 : List Nat := ([5,3,4,6,7,2,1,9,8] : List Nat).reverse
def cexBox1 : List Nat := ([7,6,1,8,5,3,9,2,4] : List Nat).reverse
def cexBox2 : List Nat := ([2,8,4,6,3,5,1,7,9] : List Nat).reverse

/-- A shuffled digit list that offers `d` first (a permutation of 1–9 for
any `d`). -/
def shuffleFirst (d : Nat) : List Nat :=
  if d ∈ digits19 then d :: digits19.erase d else digits19

/-- Digit-list stream under which the backtracking fill reconstructs
`wikiBoard`: the k-th call of `fill_remaining` sits at cell
`(k / 10, k % 10)` (ten calls per row, the tenth being the row change),
and is offered the target digit first. -/
def cexRng : Nat → List Nat :=
  fun k => shuffleFirst (Board.getCell wikiBoard (k / 10) (k % 10))

/-- Three cells of a deadly rectangle of `wikiBoard` (cells (0,3), (0,4),
(3,3), (3,4) hold 6,7 / 7,6) followed by the fourth, then the remaining
coordinates in reverse row-major order. -/
def cexPositions : List (Nat × Nat) :=
  [(0,3), (0,4), (3,3), (3,4)] ++
    (allCoords.reverse.filter fun p => ¬ p ∈ [(0,3), (0,4), (3,3), (3,4)])

/-- A concrete choice function: pick the first element (so `num_holes` for
Easy is 45). -/
def cexChoose : List Nat → Nat := fun l => l.headD 0

/-- A concrete running session: `wikiBoard` as solution, one writable empty
cell at (0,0), everything else a locked clue. -/
def demoSession : Sudoku :=
  { grid := fun y x =>
      Cell.new (if y = 0 ∧ x = 0 then 0 else Board.getCell wikiBoard y x),
    solution := fun y x => Board.getCell wikiBoard y x,
    state := GameState.Running, movements := [], start := some 100,
    elapsed := 5000000000, difficulty := Difficulty.Easy,
    checks := 0, hints := 0 }

/-- The same session, paused. -/
def pausedSession : Sudoku :=
  { demoSession with state := GameState.Paused, start := none }

/-- The same session, solved / won (for the absorbing-state witnesses). -/
def solvedSession : Sudoku := { demoSession with state := GameState.Solved }

def wonSession : Sudoku := { demoSession with state := GameState.Won }

/-- A concrete running session in the shape produced by `Sudoku::generate`:
the solution is `wikiBoard`, the puzzle is `wikiBoard` with the two cells
(0,0) and (1,1) dug out, and every cell is wrapped in `Cell::new` (so
exactly the two empty cells are writable). -/
def cexC8Session : Sudoku :=
  { grid := fun y x =>
      Cell.new (if (y = 0 ∧ x = 0) ∨ (y = 1 ∧ x = 1) then 0
                else Board.getCell wikiBoard y x),
    solution := fun y x => Board.getCell wikiBoard y x,
    state := GameState.Running, movements := [], start := some 0,
    elapsed := 0, difficulty := Difficulty.Easy, checks := 0, hints := 0 }

/-- The session reached from `cexC8Session` by the call sequence
`update_cell(0,0,4)` (a wrong entry), `update_cell(0,0,5)` (the right
entry), `check()` (marks (0,0) checked-correct), `undo_last_move()`
(restores the wrong value 4 but, as in the source, leaves the flag bits
untouched): its cell (0,0) holds 4 with the correct flag still set. -/
def cexC8Stale : Sudoku :=
  (Sudoku.undo_last_move
    (Sudoku.check ((cexC8Session.update_cell 0 0 4 100).update_cell 0 0 5 100))).1

/-- The loop body of `Board::generate_puzzle` as a standalone function:
clear the cell at `pos`, and revert the clearing (restoring the seed's
value) when the bounded solution count is not exactly 1. -/
def Board.digStep (seed puzzle : Board) (pos : Nat × Nat) : Board :=
  let backup := Board.getCell seed pos.1 pos.2
  let dug := Board.setCell puzzle pos.1 pos.2 0
  if Board.count_solutions dug 2 ≠ 1 then Board.setCell dug pos.1 pos.2 backup
  else dug

/-- Intermediate boards of the counterexample dig run: `cexDigB k` is
the puzzle after the first `k` positions of `cexPositions` have been
processed by the dig loop of `Board::generate_puzzle`, starting from
`wikiBoard`. -/
def cexDigB1 : Board :=
  [[5,3,4,0,7,8,9,1,2],
   [6,7,2,1,9,5,3,4,8],
   [1,9,8,3,4,2,5,6,7],
   [8,5,9,7,6,1,4,2,3],
   [4,2,6,8,5,3,7,9,1],
   [7,1,3,9,2,4,8,5,6],
   [9,6,1,5,3,7,2,8,4],
   [2,8,7,4,1,9,6,3,5],
   [3,4,5,2,8,6,1,7,9]]

def cexDigB2 : Board :=
  [[5,3,4,0,0,8,9,1,2],
   [6,7,2,1,9,5,3,4,8],
   [1,9,8,3,4,2,5,6,7],
   [8,5,9,7,6,1,4,2,3],
   [4,2,6,8,5,3,7,9,1],
   [7,1,3,9,2,4,8,5,6],
   [9,6,1,5,3,7,2,8,4],
   [2,8,7,4,1,9,6,3,5],
   [3,4,5,2,8,6,1,7,9]]

def cexDigB3 : Board :=
  [[5,3,4,0,0,8,9,1,2],
   [6,7,2,1,9,5,3,4,8],
   [1,9,8,3,4,2,5,6,7],
   [8,5,9,0,6,1,4,2,3],
   [4,2,6,8,5,3,7,9,1],
   [7,1,3,9,2,4,8,5,6],
   [9,6,1,5,3,7,2,8,4],
   [2,8,7,4,1,9,6,3,5],
   [3,4,5,2,8,6,1,7,9]]

def cexDigB4 : Board :=
  [[5,3,4,0,0,8,9,1,2],
   [6,7,2,1,9,5,3,4,8],
   [1,9,8,3,4,2,5,6,7],
   [8,5,9,0,6,1,4,2,3],
   [4,2,6,8,5,3,7,9,1],
   [7,1,3,9,2,4,8,5,6],
   [9,6,1,5,3,7,2,8,4],
   [2,8,7,4,1,9,6,3,5],
   [3,4,5,2,8,6,1,7,9]]

def cexDigB5 : Board :=
  [[5,3,4,0,0,8,9,1,2],
   [6,7,2,1,9,5,3,4,8],
   [1,9,8,3,4,2,5,6,7],
   [8,5,9,0,6,1,4,2,3],
   [4,2,6,8,5,3,7,9,1],
   [7,1,3,9,2,4,8,5,6],
   [9,6,1,5,3,7,2,8,4],
   [2,8,7,4,1,9,6,3,5],
   [3,4,5,2,8,6,1,7,0]]

def cexDigB6 : Board :=
  [[5,3,4,0,0,8,9,1,2],
   [6,7,2,1,9,5,3,4,8],
   [1,9,8,3,4,2,5,6,7],
   [8,5,9,0,6,1,4,2,3],
   [4,2,6,8,5,3,7,9,1],
   [7,1,3,9,2,4,8,5,6],
   [9,6,1,5,3,7,2,8,4],
   [2,8,7,4,1,9,6,3,5],
   [3,4,5,2,8,6,1,0,0]]

def cexDigB7 : Board :=
  [[5,3,4,0,0,8,9,1,2],
   [6,7,2,1,9,5,3,4,8],
   [1,9,8,3,4,2,5,6,7],
   [8,5,9,0,6,1,4,2,3],
   [4,2,6,8,5,3,7,9,1],
   [7,1,3,9,2,4,8,5,6],
   [9,6,1,5,3,7,2,8,4],
   [2,8,7,4,1,9,6,3,5],
   [3,4,5,2,8,6,0,0,0]]

def cexDigB8 : Board :=
  [[5,3,4,0,0,8,9,1,2],
   [6,7,2,1,9,5,3,4,8],
   [1,9,8,3,4,2,5,6,7],
   [8,5,9,0,6,1,4,2,3],
   [4,2,6,8,5,3,7,9,1],
   [7,1,3,9,2,4,8,5,6],
   [9,6,1,5,3,7,2,8,4],
   [2,8,7,4,1,9,6,3,5],
   [3,4,5,2,8,0,0,0,0]]

def cexDigB9 : Board :=
  [[5,3,4,0,0,8,9,1,2],
   [6,7,2,1,9,5,3,4,8],
   [1,9,8,3,4,2,5,6,7],
   [8,5,9,0,6,1,4,2,3],
   [4,2,6,8,5,3,7,9,1],
   [7,1,3,9,2,4,8,5,6],
   [9,6,1,5,3,7,2,8,4],
   [2,8,7,4,1,9,6,3,5],
   [3,4,5,2,0,0,0,0,0]]

def cexDigB10 : Board :=
  [[5,3,4,0,0,8,9,1,2],
   [6,7,2,1,9,5,3,4,8],
   [1,9,8,3,4,2,5,6,7],
   [8,5,9,0,6,1,4,2,3],
   [4,2,6,8,5,3,7,9,1],
   [7,1,3,9,2,4,8,5,6],
   [9,6,1,5,3,7,2,8,4],
   [2,8,7,4,1,9,6,3,5],
   [3,4,5,0,0,0,0,0,0]]

def cexDigB11 : Board :=
  [[5,3,4,0,0,8,9,1,2],
   [6,7,2,1,9,5,3,4,8],
   [1,9,8,3,4,2,5,6,7],
   [8,5,9,0,6,1,4,2,3],
   [4,2,6,8,5,3,7,9,1],
   [7,1,3,9,2,4,8,5,6],
   [9,6,1,5,3,7,2,8,4],
   [2,8,7,4,1,9,6,3,5],
   [3,4,0,0,0,0,0,0,0]]

def cexDigB12 : Board :=
  [[5,3,4,0,0,8,9,1,2],
   [6,7,2,1,9,5,3,4,8],
   [1,9,8,3,4,2,5,6,7],
   [8,5,9,0,6,1,4,2,3],
   [4,2,6,8,5,3,7,9,1],
   [7,1,3,9,2,4,8,5,6],
   [9,6,1,5,3,7,2,8,4],
   [2,8,7,4,1,9,6,3,5],
   [3,0,0,0,0,0,0,0,0]]

def cexDigB13 : Board :=
  [[5,3,4,0,0,8,9,1,2],
   [6,7,2,1,9,5,3,4,8],
   [1,9,8,3,4,2,5,6,7],
   [8,5,9,0,6,1,4,2,3],
   [4,2,6,8,5,3,7,9,1],
   [7,1,3,9,2,4,8,5,6],
   [9,6,1,5,3,7,2,8,4],
   [2,8,7,4,1,9,6,3,5],
   [0,0,0,0,0,0,0,0,0]]

def cexDigB14 : Board :=
  [[5,3,4,0,0,8,9,1,2],
   [6,7,2,1,9,5,3,4,8],
   [1,9,8,3,4,2,5,6,7],
   [8,5,9,0,6,1,4,2,3],
   [4,2,6,8,5,3,7,9,1],
   [7,1,3,9,2,4,8,5,6],
   [9,6,1,5,3,7,2,8,4],
   [2,8,7,4,1,9,6,3,0],
   [0,0,0,0,0,0,0,0,0]]

def cexDigB15 : Board :=
  [[5,3,4,0,0,8,9,1,2],
   [6,7,2,1,9,5,3,4,8],
   [1,9,8,3,4,2,5,6,7],
   [8,5,9,0,6,1,4,2,3],
   [4,2,6,8,5,3,7,9,1],
   [7,1,3,9,2,4,8,5,6],
   [9,6,1,5,3,7,2,8,4],
   [2,8,7,4,1,9,6,0,0],
   [0,0,0,0,0,0,0,0,0]]

def cexDigB16 : Board :=
  [[5,3,4,0,0,8,9,1,2],
   [6,7,2,1,9,5,3,4,8],
   [1,9,8,3,4,2,5,6,7],
   [8,5,9,0,6,1,4,2,3],
   [4,2,6,8,5,3,7,9,1],
   [7,1,3,9,2,4,8,5,6],
   [9,6,1,5,3,7,2,8,4],
   [2,8,7,4,1,9,0,0,0],
   [0,0,0,0,0,0,0,0,0]]

def cexDigB17 : Board :=
  [[5,3,4,0,0,8,9,1,2],
   [6,7,2,1,9,5,3,4,8],
   [1,9,8,3,4,2,5,6,7],
   [8,5,9,0,6,1,4,2,3],
   [4,2,6,8,5,3,7,9,1],
   [7,1,3,9,2,4,8,5,6],
   [9,6,1,5,3,7,2,8,4],
   [2,8,7,4,1,0,0,0,0],
   [0,0,0,0,0,0,0,0,0]]

def cexDigB18 : Board :=
  [[5,3,4,0,0,8,9,1,2],
   [6,7,2,1,9,5,3,4,8],
   [1,9,8,3,4,2,5,6,7],
   [8,5,9,0,6,1,4,2,3],
   [4,2,6,8,5,3,7,9,1],
   [7,1,3,9,2,4,8,5,6],
   [9,6,1,5,3,7,2,8,4],
   [2,8,7,4,0,0,0,0,0],
   [0,0,0,0,0,0,0,0,0]]

def cexDigB19 : Board :=
  [[5,3,4,0,0,8,9,1,2],
   [6,7,2,1,9,5,3,4,8],
   [1,9,8,3,4,2,5,6,7],
   [8,5,9,0,6,1,4,2,3],
   [4,2,6,8,5,3,7,9,1],
   [7,1,3,9,2,4,8,5,6],
   [9,6,1,5,3,7,2,8,4],
   [2,8,7,0,0,0,0,0,0],
   [0,0,0,0,0,0,0,0,0]]

def cexDigB20 : Board :=
  [[5,3,4,0,0,8,9,1,2],
   [6,7,2,1,9,5,3,4,8],
   [1,9,8,3,4,2,5,6,7],
   [8,5,9,0,6,1,4,2,3],
   [4,2,6,8,5,3,7,9,1],
   [7,1,3,9,2,4,8,5,6],
   [9,6,1,5,3,7,2,8,4],
   [2,8,0,0,0,0,0,0,0],
   [0,0,0,0,0,0,0,0,0]]

def cexDigB21 : Board :=
  [[5,3,4,0,0,8,9,1,2],
   [6,7,2,1,9,5,3,4,8],
   [1,9,8,3,4,2,5,6,7],
   [8,5,9,0,6,1,4,2,3],
   [4,2,6,8,5,3,7,9,1],
   [7,1,3,9,2,4,8,5,6],
   [9,6,1,5,3,7,2,8,4],
   [2,0,0,0,0,0,0,0,0],
   [0,0,0,0,0,0,0,0,0]]

def cexDigB22 : Board :=
  [[5,3,4,0,0,8,9,1,2],
   [6,7,2,1,9,5,3,4,8],
   [1,9,8,3,4,2,5,6,7],
   [8,5,9,0,6,1,4,2,3],
   [4,2,6,8,5,3,7,9,1],
   [7,1,3,9,2,4,8,5,6],
   [9,6,1,5,3,7,2,8,4],
   [2,0,0,0,0,0,0,0,0],
   [0,0,0,0,0,0,0,0,0]]

def cexDigB23 : Board :=
  [[5,3,4,0,0,8,9,1,2],
   [6,7,2,1,9,5,3,4,8],
   [1,9,8,3,4,2,5,6,7],
   [8,5,9,0,6,1,4,2,3],
   [4,2,6,8,5,3,7,9,1],
   [7,1,3,9,2,4,8,5,6],
   [9,6,1,5,3,7,2,8,0],
   [2,0,0,0,0,0,0,0,0],
   [0,0,0,0,0,0,0,0,0]]

def cexDigB24 : Board :=
  [[5,3,4,0,0,8,9,1,2],
   [6,7,2,1,9,5,3,4,8],
   [1,9,8,3,4,2,5,6,7],
   [8,5,9,0,6,1,4,2,3],
   [4,2,6,8,5,3,7,9,1],
   [7,1,3,9,2,4,8,5,6],
   [9,6,1,5,3,7,2,0,0],
   [2,0,0,0,0,0,0,0,0],
   [0,0,0,0,0,0,0,0,0]]

def cexDigB25 : Board :=
  [[5,3,4,0,0,8,9,1,2],
   [6,7,2,1,9,5,3,4,8],
   [1,9,8,3,4,2,5,6,7],
   [8,5,9,0,6,1,4,2,3],
   [4,2,6,8,5,3,7,9,1],
   [7,1,3,9,2,4,8,5,6],
   [9,6,1,5,3,7,0,0,0],
   [2,0,0,0,0,0,0,0,0],
   [0,0,0,0,0,0,0,0,0]]

def cexDigB26 : Board :=
  [[5,3,4,0,0,8,9,1,2],
   [6,7,2,1,9,5,3,4,8],
   [1,9,8,3,4,2,5,6,7],
   [8,5,9,0,6,1,4,2,3],
   [4,2,6,8,5,3,7,9,1],
   [7,1,3,9,2,4,8,5,6],
   [9,6,1,5,3,0,0,0,0],
   [2,0,0,0,0,0,0,0,0],
   [0,0,0,0,0,0,0,0,0]]

def cexDigB27 : Board :=
  [[5,3,4,0,0,8,9,1,2],
   [6,7,2,1,9,5,3,4,8],
   [1,9,8,3,4,2,5,6,7],
   [8,5,9,0,6,1,4,2,3],
   [4,2,6,8,5,3,7,9,1],
   [7,1,3,9,2,4,8,5,6],
   [9,6,1,5,3,0,0,0,0],
   [2,0,0,0,0,0,0,0,0],
   [0,0,0,0,0,0,0,0,0]]

def cexDigB28 : Board :=
  [[5,3,4,0,0,8,9,1,2],
   [6,7,2,1,9,5,3,4,8],
   [1,9,8,3,4,2,5,6,7],
   [8,5,9,0,6,1,4,2,3],
   [4,2,6,8,5,3,7,9,1],
   [7,1,3,9,2,4,8,5,6],
   [9,6,1,5,3,0,0,0,0],
   [2,0,0,0,0,0,0,0,0],
   [0,0,0,0,0,0,0,0,0]]

def cexDigB29 : Board :=
  [[5,3,4,0,0,8,9,1,2],
   [6,7,2,1,9,5,3,4,8],
   [1,9,8,3,4,2,5,6,7],
   [8,5,9,0,6,1,4,2,3],
   [4,2,6,8,5,3,7,9,1],
   [7,1,3,9,2,4,8,5,6],
   [9,6,0,5,3,0,0,0,0],
   [2,0,0,0,0,0,0,0,0],
   [0,0,0,0,0,0,0,0,0]]

def cexDigB30 : Board :=
  [[5,3,4,0,0,8,9,1,2],
   [6,7,2,1,9,5,3,4,8],
   [1,9,8,3,4,2,5,6,7],
   [8,5,9,0,6,1,4,2,3],
   [4,2,6,8,5,3,7,9,1],
   [7,1,3,9,2,4,8,5,6],
   [9,6,0,5,3,0,0,0,0],
   [2,0,0,0,0,0,0,0,0],
   [0,0,0,0,0,0,0,0,0]]

def cexDigB31 : Board :=
  [[5,3,4,0,0,8,9,1,2],
   [6,7,2,1,9,5,3,4,8],
   [1,9,8,3,4,2,5,6,7],
   [8,5,9,0,6,1,4,2,3],
   [4,2,6,8,5,3,7,9,1],
   [7,1,3,9,2,4,8,5,6],
   [0,6,0,5,3,0,0,0,0],
   [2,0,0,0,0,0,0,0,0],
   [0,0,0,0,0,0,0,0,0]]

def cexDigB32 : Board :=
  [[5,3,4,0,0,8,9,1,2],
   [6,7,2,1,9,5,3,4,8],
   [1,9,8,3,4,2,5,6,7],
   [8,5,9,0,6,1,4,2,3],
   [4,2,6,8,5,3,7,9,1],
   [7,1,3,9,2,4,8,5,0],
   [0,6,0,5,3,0,0,0,0],
   [2,0,0,0,0,0,0,0,0],
   [0,0,0,0,0,0,0,0,0]]

def cexDigB33 : Board :=
  [[5,3,4,0,0,8,9,1,2],
   [6,7,2,1,9,5,3,4,8],
   [1,9,8,3,4,2,5,6,7],
   [8,5,9,0,6,1,4,2,3],
   [4,2,6,8,5,3,7,9,1],
   [7,1,3,9,2,4,8,0,0],
   [0,6,0,5,3,0,0,0,0],
   [2,0,0,0,0,0,0,0,0],
   [0,0,0,0,0,0,0,0,0]]

def cexDigB34 : Board :=
  [[5,3,4,0,0,8,9,1,2],
   [6,7,2,1,9,5,3,4,8],
   [1,9,8,3,4,2,5,6,7],
   [8,5,9,0,6,1,4,2,3],
   [4,2,6,8,5,3,7,9,1],
   [7,1,3,9,2,4,0,0,0],
   [0,6,0,5,3,0,0,0,0],
   [2,0,0,0,0,0,0,0,0],
   [0,0,0,0,0,0,0,0,0]]

def cexDigB35 : Board :=
  [[5,3,4,0,0,8,9,1,2],
   [6,7,2,1,9,5,3,4,8],
   [1,9,8,3,4,2,5,6,7],
   [8,5,9,0,6,1,4,2,3],
   [4,2,6,8,5,3,7,9,1],
   [7,1,3,9,2,0,0,0,0],
   [0,6,0,5,3,0,0,0,0],
   [2,0,0,0,0,0,0,0,0],
   [0,0,0,0,0,0,0,0,0]]

def cexDigB36 : Board :=
  [[5,3,4,0,0,8,9,1,2],
   [6,7,2,1,9,5,3,4,8],
   [1,9,8,3,4,2,5,6,7],
   [8,5,9,0,6,1,4,2,3],
   [4,2,6,8,5,3,7,9,1],
   [7,1,3,9,0,0,0,0,0],
   [0,6,0,5,3,0,0,0,0],
   [2,0,0,0,0,0,0,0,0],
   [0,0,0,0,0,0,0,0,0]]

def cexDigB37 : Board :=
  [[5,3,4,0,0,8,9,1,2],
   [6,7,2,1,9,5,3,4,8],
   [1,9,8,3,4,2,5,6,7],
   [8,5,9,0,6,1,4,2,3],
   [4,2,6,8,5,3,7,9,1],
   [7,1,3,9,0,0,0,0,0],
   [0,6,0,5,3,0,0,0,0],
   [2,0,0,0,0,0,0,0,0],
   [0,0,0,0,0,0,0,0,0]]

def cexDigB38 : Board :=
  [[5,3,4,0,0,8,9,1,2],
   [6,7,2,1,9,5,3,4,8],
   [1,9,8,3,4,2,5,6,7],
   [8,5,9,0,6,1,4,2,3],
   [4,2,6,8,5,3,7,9,1],
   [7,1,0,9,0,0,0,0,0],
   [0,6,0,5,3,0,0,0,0],
   [2,0,0,0,0,0,0,0,0],
   [0,0,0,0,0,0,0,0,0]]

def cexDigB39 : Board :=
  [[5,3,4,0,0,8,9,1,2],
   [6,7,2,1,9,5,3,4,8],
   [1,9,8,3,4,2,5,6,7],
   [8,5,9,0,6,1,4,2,3],
   [4,2,6,8,5,3,7,9,1],
   [7,0,0,9,0,0,0,0,0],
   [0,6,0,5,3,0,0,0,0],
   [2,0,0,0,0,0,0,0,0],
   [0,0,0,0,0,0,0,0,0]]

def cexDigB40 : Board :=
  [[5,3,4,0,0,8,9,1,2],
   [6,7,2,1,9,5,3,4,8],
   [1,9,8,3,4,2,5,6,7],
   [8,5,9,0,6,1,4,2,3],
   [4,2,6,8,5,3,7,9,1],
   [7,0,0,9,0,0,0,0,0],
   [0,6,0,5,3,0,0,0,0],
   [2,0,0,0,0,0,0,0,0],
   [0,0,0,0,0,0,0,0,0]]

def cexDigB41 : Board :=
  [[5,3,4,0,0,8,9,1,2],
   [6,7,2,1,9,5,3,4,8],
   [1,9,8,3,4,2,5,6,7],
   [8,5,9,0,6,1,4,2,3],
   [4,2,6,8,5,3,7,9,0],
   [7,0,0,9,0,0,0,0,0],
   [0,6,0,5,3,0,0,0,0],
   [2,0,0,0,0,0,0,0,0],
   [0,0,0,0,0,0,0,0,0]]

def cexDigB42 : Board :=
  [[5,3,4,0,0,8,9,1,2],
   [6,7,2,1,9,5,3,4,8],
   [1,9,8,3,4,2,5,6,7],
   [8,5,9,0,6,1,4,2,3],
   [4,2,6,8,5,3,7,0,0],
   [7,0,0,9,0,0,0,0,0],
   [0,6,0,5,3,0,0,0,0],
   [2,0,0,0,0,0,0,0,0],
   [0,0,0,0,0,0,0,0,0]]

def cexDigB43 : Board :=
  [[5,3,4,0,0,8,9,1,2],
   [6,7,2,1,9,5,3,4,8],
   [1,9,8,3,4,2,5,6,7],
   [8,5,9,0,6,1,4,2,3],
   [4,2,6,8,5,3,7,0,0],
   [7,0,0,9,0,0,0,0,0],
   [0,6,0,5,3,0,0,0,0],
   [2,0,0,0,0,0,0,0,0],
   [0,0,0,0,0,0,0,0,0]]

def cexDigB44 : Board :=
  [[5,3,4,0,0,8,9,1,2],
   [6,7,2,1,9,5,3,4,8],
   [1,9,8,3,4,2,5,6,7],
   [8,5,9,0,6,1,4,2,3],
   [4,2,6,8,5,0,7,0,0],
   [7,0,0,9,0,0,0,0,0],
   [0,6,0,5,3,0,0,0,0],
   [2,0,0,0,0,0,0,0,0],
   [0,0,0,0,0,0,0,0,0]]

def cexDigB45 : Board :=
  [[5,3,4,0,0,8,9,1,2],
   [6,7,2,1,9,5,3,4,8],
   [1,9,8,3,4,2,5,6,7],
   [8,5,9,0,6,1,4,2,3],
   [4,2,6,8,0,0,7,0,0],
   [7,0,0,9,0,0,0,0,0],
   [0,6,0,5,3,0,0,0,0],
   [2,0,0,0,0,0,0,0,0],
   [0,0,0,0,0,0,0,0,0]]

/-! # Theorems -/

theorem List.getD_set' {α : Type _} (l : List α) (i j : Nat) (a d : α) :
    (l.set i a).getD j d = if i = j ∧ i < l.length then a else l.getD j d := by
  simp only [List.getD_eq_getElem?_getD, List.getElem?_set]
  by_cases hij : i = j
  · subst hij
    by_cases hlen : i < l.length
    · simp [hlen]
    · simp [hlen, List.getElem?_eq_none (Nat.le_of_not_lt hlen)]
  · simp [hij]

theorem List.set_getD_self {α : Type _} (l : List α) (n : Nat) (d : α) :
    l.set n (l.getD n d) = l := by
  apply List.ext_getElem?
  intro j
  rw [List.getElem?_set]
  by_cases hj : n = j
  · subst hj
    by_cases hlen : n < l.length
    · rw [if_pos hlen, List.getD_eq_getElem?_getD, List.getElem?_eq_getElem hlen,
          Option.getD_some]
      simp
    · rw [if_neg hlen, List.getElem?_eq_none (Nat.le_of_not_lt hlen)]
      simp
  · rw [if_neg hj]

namespace Board

/-- Reading after writing, in all cases (out-of-range writes drop). -/
theorem getCell_setCell (b : Board) (r c v r2 c2 : Nat) :
    getCell (setCell b r c v) r2 c2 =
      if r = r2 ∧ r < b.length ∧ c = c2 ∧ c < (b.getD r []).length then v
      else getCell b r2 c2 := by
  unfold getCell setCell
  rw [List.getD_set']
  by_cases h1 : r = r2 ∧ r < b.length
  · obtain ⟨e, hlen⟩ := h1
    subst e
    rw [if_pos ⟨rfl, hlen⟩, List.getD_set']
    by_cases h2 : c = c2 ∧ c < (b.getD r []).length
    · rw [if_pos h2, if_pos ⟨rfl, hlen, h2.1, h2.2⟩]
    · rw [if_neg h2, if_neg (by rintro ⟨-, -, e2, hc⟩; exact h2 ⟨e2, hc⟩)]
  · rw [if_neg h1, if_neg (by rintro ⟨e1, hl, -, -⟩; exact h1 ⟨e1, hl⟩)]

theorem getCell_setCell_ne (b : Board) {r c r2 c2 : Nat} (v : Nat)
    (h : (r2, c2) ≠ (r, c)) :
    getCell (setCell b r c v) r2 c2 = getCell b r2 c2 := by
  rw [getCell_setCell]
  refine if_neg ?_
  rintro ⟨e1, -, e2, -⟩
  exact h (by simp [e1.symm, e2.symm])

theorem getCell_setCell_cases (b : Board) (r c v r2 c2 : Nat) :
    getCell (setCell b r c v) r2 c2 = getCell b r2 c2 ∨
      getCell (setCell b r c v) r2 c2 = v := by
  rw [getCell_setCell]
  by_cases h : r = r2 ∧ r < b.length ∧ c = c2 ∧ c < (b.getD r []).length
  · right; rw [if_pos h]
  · left; rw [if_neg h]

theorem setCell_setCell (b : Board) (r c v w : Nat) :
    setCell (setCell b r c v) r c w = setCell b r c w := by
  unfold setCell
  rw [List.set_set]
  congr 1
  rw [List.getD_set']
  by_cases hlen : r < b.length
  · rw [if_pos ⟨rfl, hlen⟩, List.set_set]
  · rw [if_neg (by rintro ⟨-, hl⟩; exact hlen hl)]

theorem setCell_getCell_self (b : Board) (r c : Nat) :
    setCell b r c (getCell b r c) = b := by
  unfold setCell getCell
  rw [List.set_getD_self, List.set_getD_self]

end Board

/-! ## Cell flag lemmas -/

namespace Cell

theorem checked_eq_testBit (c : Cell) : c.checked = c.flags.testBit 0 := by
  unfold Cell.checked CELL_CHECKED
  rw [show (1 : Nat) = 2 ^ 0 from rfl, Nat.and_two_pow]
  cases h : c.flags.testBit 0 <;> simp [h]

theorem correct_eq_testBit (c : Cell) : c.correct = c.flags.testBit 1 := by
  unfold Cell.correct CELL_CORRECT
  rw [show (2 : Nat) = 2 ^ 1 from rfl, Nat.and_two_pow]
  cases h : c.flags.testBit 1 <;> simp [h]

theorem writable_eq_testBit (c : Cell) : c.writable = c.flags.testBit 2 := by
  unfold Cell.writable CELL_WRITABLE
  rw [show (4 : Nat) = 2 ^ 2 from rfl, Nat.and_two_pow]
  cases h : c.flags.testBit 2 <;> simp [h]

theorem value_check (c : Cell) (correct : Bool) :
    (c.check correct).value = c.value := by
  unfold Cell.check; cases correct <;> rfl

theorem value_uncheck (c : Cell) : c.uncheck.value = c.value := rfl

theorem checked_check (c : Cell) (correct : Bool) :
    (c.check correct).checked = true := by
  rw [checked_eq_testBit]
  unfold Cell.check CELL_CHECKED CELL_CORRECT
  have h1 : Nat.testBit 1 0 = true := by decide
  cases correct <;> simp [Nat.testBit_or, h1]

theorem correct_check (c : Cell) (correct : Bool) :
    (c.check correct).correct = (correct || c.correct) := by
  rw [correct_eq_testBit, correct_eq_testBit]
  unfold Cell.check CELL_CHECKED CELL_CORRECT
  have h1 : Nat.testBit 1 1 = false := by decide
  have h2 : Nat.testBit 2 1 = true := by decide
  cases correct <;> simp [Nat.testBit_or, h1, h2]

theorem writable_check (c : Cell) (correct : Bool) :
    (c.check correct).writable = c.writable := by
  rw [writable_eq_testBit, writable_eq_testBit]
  unfold Cell.check CELL_CHECKED CELL_CORRECT
  have h1 : Nat.testBit 1 2 = false := by decide
  have h2 : Nat.testBit 2 2 = false := by decide
  cases correct <;> simp [Nat.testBit_or, h1, h2]

theorem flags_uncheck (c : Cell) : c.uncheck.flags = c.flags &&& 254 &&& 253 := by
  unfold Cell.uncheck CELL_CHECKED CELL_CORRECT
  norm_num

theorem checked_uncheck (c : Cell) : c.uncheck.checked = false := by
  rw [checked_eq_testBit, flags_uncheck]
  have h253 : Nat.testBit 253 0 = true := by decide
  have h254 : Nat.testBit 254 0 = false := by decide
  simp [Nat.testBit_and, h253, h254]

theorem correct_uncheck (c : Cell) : c.uncheck.correct = false := by
  rw [correct_eq_testBit, flags_uncheck]
  have h253 : Nat.testBit 253 1 = false := by decide
  simp [Nat.testBit_and, h253]

theorem writable_uncheck (c : Cell) : c.uncheck.writable = c.writable := by
  rw [writable_eq_testBit, writable_eq_testBit, flags_uncheck]
  have h253 : Nat.testBit 253 2 = true := by decide
  have h254 : Nat.testBit 254 2 = true := by decide
  simp [Nat.testBit_and, h253, h254]

theorem new_value (v : Nat) : (Cell.new v).value = v := rfl

theorem writable_new (v : Nat) : (Cell.new v).writable = decide (v = 0) := by
  unfold Cell.new
  by_cases h : v = 0 <;> simp [h, Cell.writable, CELL_WRITABLE]

end Cell

/-! ## Claim C5: the validity check -/

/-- C5: for every board and in-range (row, col, value) with value 1–9,
`is_valid` returns true iff the value does not already appear in that row,
that column, or the containing 3×3 box; and on the concrete board whose
top-left box is [[5,3,4],[6,7,2],[1,9,8]], placing 5 anywhere else in
row 0 is rejected. -/
theorem is_valid_iff_no_conflict :
    (∀ (b : Board) (row col v : Nat), row < 9 → col < 9 → 1 ≤ v → v ≤ 9 →
      (Board.is_valid b row col v = true ↔
        ¬ Board.appearsInRow b row v ∧ ¬ Board.appearsInCol b col v ∧
          ¬ Board.appearsInBox b row col v)) ∧
    (∀ c < 9, c ≠ 0 → Board.is_valid wikiBoard 0 c 5 = false) := by
  constructor
  · intro b row col v _ _ _ _
    unfold Board.is_valid Board.appearsInRow Board.appearsInCol Board.appearsInBox
      Board.SIZE Board.SUBGRID_SIZE
    simp only [Bool.and_eq_true, List.all_eq_true, List.mem_range,
      Bool.not_eq_eq_eq_not, Bool.not_true, beq_eq_false_iff_ne, ne_eq]
    push_neg
    constructor
    · rintro ⟨hrc, hbox⟩
      refine ⟨fun i hi => (hrc i hi).1, fun i hi => (hrc i hi).2, ?_⟩
      intro i hi j hj
      exact hbox i hi j hj
    · rintro ⟨hr, hc, hbox⟩
      exact ⟨fun i hi => ⟨hr i hi, hc i hi⟩, fun i hi j hj => hbox i hi j hj⟩
  · decide

theorem is_valid_iff_no_conflict_witness :
    (Board.is_valid wikiBoard 8 8 9 = true ↔
      ¬ Board.appearsInRow wikiBoard 8 9 ∧ ¬ Board.appearsInCol wikiBoard 8 9 ∧
        ¬ Board.appearsInBox wikiBoard 8 8 9) ∧
    Board.is_valid wikiBoard 0 4 5 = false :=
  ⟨is_valid_iff_no_conflict.1 wikiBoard 8 8 9 (by decide) (by decide) (by decide)
      (by decide),
   is_valid_iff_no_conflict.2 4 (by decide) (by decide)⟩

/-! ## Claim C7: check/hint budgets -/

/-- C7: with the budget exhausted, `check` verifies nothing and changes
nothing; a `check` that finds no eligible cell changes nothing and spends
no budget; and likewise `hint` is inert once its budget is exhausted. -/
theorem check_hint_budget :
    (∀ s : Sudoku, MAX_CHECKS ≤ s.checks → s.check = s) ∧
    (∀ s : Sudoku, s.is_running = true → s.checks < MAX_CHECKS →
      (∀ i < 9, ∀ j < 9, s.eligible i j = false) → s.check = s) ∧
    (∀ (s : Sudoku) (positions : List (Nat × Nat)), MAX_HINTS ≤ s.hints →
      s.hint positions = s) := by
  refine ⟨?_, ?_, ?_⟩
  · intro s h
    have : s.can_check = false := by
      simp [Sudoku.can_check, Nat.not_lt.mpr h]
    simp [Sudoku.check, this]
  · intro s hrun hlt helig
    have hcan : s.can_check = true := by
      simp [Sudoku.can_check, hrun, hlt]
    have hgrid : (fun i j =>
        if i < 9 ∧ j < 9 ∧ s.eligible i j then
          (s.grid i j).check ((s.grid i j).value == s.solution i j)
        else s.grid i j) = s.grid := by
      funext i j
      refine if_neg ?_
      rintro ⟨hi, hj, he⟩
      rw [helig i hi j hj] at he
      exact absurd he (by simp)
    have hany : ((List.range 9).any fun i => (List.range 9).any fun j =>
        s.eligible i j) = false := by
      simp only [List.any_eq_false, Bool.not_eq_true, List.mem_range]
      intro i hi j hj
      exact helig i hi j hj
    rw [Sudoku.check, if_neg (by simp [hcan])]
    simp only [hgrid, hany, if_neg]
    rfl
  · intro s positions h
    have : s.can_hint = false := by
      simp [Sudoku.can_hint, Nat.not_lt.mpr h]
    simp [Sudoku.hint, this]

theorem check_hint_budget_witness :
    Sudoku.check { demoSession with checks := 3 } = { demoSession with checks := 3 } ∧
    Sudoku.check demoSession = demoSession ∧
    Sudoku.hint { demoSession with hints := 3 } [] = { demoSession with hints := 3 } :=
  ⟨check_hint_budget.1 _ (by decide),
   check_hint_budget.2.1 demoSession (by decide) (by decide)
     (by decide),
   check_hint_budget.2.2 _ [] (by decide)⟩

/-! ## Claim C9: terminal states are absorbing (corrected) -/

/-- Shared helper: every gated operation is a no-op whenever the session is
not running. -/
theorem Sudoku.not_running_noop (s : Sudoku) (h : s.is_running = false) :
    (∀ x y v now, s.update_cell x y v now = s) ∧
    s.undo_last_move = (s, none) ∧
    s.check = s ∧
    (∀ positions, s.hint positions = s) ∧
    (∀ now, s.complete now = s) ∧
    s.clear_board = s ∧
    (∀ now, s.pause now = s) := by
  refine ⟨?_, ?_, ?_, ?_, ?_, ?_, ?_⟩
  · intro x y v now
    simp [Sudoku.update_cell, h]
  · simp [Sudoku.undo_last_move, h]
  · simp [Sudoku.check, Sudoku.can_check, h]
  · intro positions
    simp [Sudoku.hint, Sudoku.can_hint, h]
  · intro now
    simp [Sudoku.complete, h]
  · simp [Sudoku.clear_board, h]
  · intro now
    simp [Sudoku.pause, h]

/-- C9 (amended): `Solved` and `Won` are absorbing — no session operation
changes anything there — and every operation is likewise a no-op in
`Paused`, except `toggle_pause`, which resumes a paused session (that
exception is what the counterexample below exhibits). -/
theorem terminal_states_absorbing :
    (∀ s : Sudoku,
      s.state = GameState.Solved ∨ s.state = GameState.Won →
      (∀ x y v now, s.update_cell x y v now = s) ∧
      s.undo_last_move = (s, none) ∧
      s.check = s ∧
      (∀ positions, s.hint positions = s) ∧
      (∀ now, s.complete now = s) ∧
      s.clear_board = s ∧
      (∀ now, s.pause now = s) ∧
      (∀ now, s.toggle_pause now = s)) ∧
    (∀ s : Sudoku, s.state = GameState.Paused →
      (∀ x y v now, s.update_cell x y v now = s) ∧
      s.undo_last_move = (s, none) ∧
      s.check = s ∧
      (∀ positions, s.hint positions = s) ∧
      (∀ now, s.complete now = s) ∧
      s.clear_board = s ∧
      (∀ now, s.pause now = s) ∧
      (∀ now, s.toggle_pause now =
        { s with start := some now, state := GameState.Running })) := by
  constructor
  · intro s h
    have hrun : s.is_running = false := by
      rcases h with h | h <;> simp [Sudoku.is_running, h]
    obtain ⟨h1, h2, h3, h4, h5, h6, h7⟩ := Sudoku.not_running_noop s hrun
    refine ⟨h1, h2, h3, h4, h5, h6, h7, ?_⟩
    intro now
    rcases h with h | h <;> simp [Sudoku.toggle_pause, h]
  · intro s h
    have hrun : s.is_running = false := by simp [Sudoku.is_running, h]
    obtain ⟨h1, h2, h3, h4, h5, h6, h7⟩ := Sudoku.not_running_noop s hrun
    refine ⟨h1, h2, h3, h4, h5, h6, h7, ?_⟩
    intro now
    simp [Sudoku.toggle_pause, h]

theorem terminal_states_absorbing_witness :
    solvedSession.update_cell 1 2 3 4 = solvedSession ∧
    wonSession.toggle_pause 11 = wonSession ∧
    pausedSession.toggle_pause 42 =
      { pausedSession with start := some 42, state := GameState.Running } :=
  ⟨(terminal_states_absorbing.1 solvedSession (Or.inl rfl)).1 1 2 3 4,
   (terminal_states_absorbing.1 wonSession (Or.inr rfl)).2.2.2.2.2.2.2 11,
   (terminal_states_absorbing.2 pausedSession rfl).2.2.2.2.2.2.2 42⟩

/-- C9 counterexample: `toggle_pause` is not a no-op outside `Running`: on
a paused session it changes the state (it resumes the game), refuting the
claim's "every player-facing operation is a no-op outside Running". -/
theorem toggle_pause_not_noop_when_paused :
    pausedSession.state ≠ GameState.Running ∧
    (pausedSession.toggle_pause 7).state ≠ pausedSession.state := by
  constructor
  · decide
  · show GameState.Running ≠ GameState.Paused
    decide

/-! ## Claims C4 and C10: save / load -/

theorem saveBytes_length (sv : Save) : (saveBytes sv).length = 257 := by
  simp [saveBytes]

theorem saveBytes_getD (sv : Save) (i : Nat) (h : i < 257) :
    (saveBytes sv).getD i 0 = saveByte sv i := by
  unfold saveBytes
  rw [List.getD_eq_getElem?_getD, List.getElem?_map, List.getElem?_range h]
  rfl

theorem diffTag_lt_four (d : Difficulty) : diffTag d < 4 := by
  cases d <;> decide

theorem tagDiff_diffTag (d : Difficulty) : tagDiff (diffTag d) = d := by
  cases d <;> rfl

theorem saveByte_grid_value (sv : Save) (y x : Nat) (hy : y < 9) (hx : x < 9) :
    saveByte sv (2 * (9 * y + x)) = (sv.grid y x).value % 256 := by
  unfold saveByte
  rw [if_pos (by omega)]
  have h2 : 2 * (9 * y + x) / 2 = 9 * y + x := by omega
  have hm : 2 * (9 * y + x) % 2 = 0 := by omega
  rw [hm, h2]
  have hdiv : (9 * y + x) / 9 = y := by omega
  have hmod : (9 * y + x) % 9 = x := by omega
  dsimp only
  simp [hdiv, hmod]

theorem saveByte_grid_flags (sv : Save) (y x : Nat) (hy : y < 9) (hx : x < 9) :
    saveByte sv (2 * (9 * y + x) + 1) = (sv.grid y x).flags % 256 := by
  unfold saveByte
  rw [if_pos (by omega)]
  have h2 : (2 * (9 * y + x) + 1) / 2 = 9 * y + x := by omega
  have hm : (2 * (9 * y + x) + 1) % 2 = 1 := by omega
  rw [hm, h2]
  have hdiv : (9 * y + x) / 9 = y := by omega
  have hmod : (9 * y + x) % 9 = x := by omega
  dsimp only
  simp [hdiv, hmod]

theorem saveByte_solution (sv : Save) (y x : Nat) (hy : y < 9) (hx : x < 9) :
    saveByte sv (162 + (9 * y + x)) = sv.solution y x % 256 := by
  unfold saveByte
  rw [if_neg (by omega), if_pos (by omega)]
  have h1 : 162 + (9 * y + x) - 162 = 9 * y + x := by omega
  rw [h1]
  have hdiv : (9 * y + x) / 9 = y := by omega
  have hmod : (9 * y + x) % 9 = x := by omega
  rw [hdiv, hmod]

theorem saveByte_diff (sv : Save) (t : Nat) (ht : t < 4) :
    saveByte sv (243 + t) = diffTag sv.difficulty / 256 ^ t % 256 := by
  unfold saveByte
  rw [if_neg (by omega), if_neg (by omega), if_pos (by omega)]
  have h1 : 243 + t - 243 = t := by omega
  rw [h1]

theorem saveByte_elapsed (sv : Save) (t : Nat) (ht : t < 8) :
    saveByte sv (247 + t) = sv.elapsed / 256 ^ t % 256 := by
  unfold saveByte
  rw [if_neg (by omega), if_neg (by omega), if_neg (by omega), if_pos (by omega)]
  have h1 : 247 + t - 247 = t := by omega
  rw [h1]

theorem saveByte_checks (sv : Save) : saveByte sv 255 = sv.checks % 256 := by
  unfold saveByte
  rw [if_neg (by omega), if_neg (by omega), if_neg (by omega), if_neg (by omega),
      if_pos rfl]

theorem saveByte_hints (sv : Save) : saveByte sv 256 = sv.hints % 256 := by
  unfold saveByte
  rw [if_neg (by omega), if_neg (by omega), if_neg (by omega), if_neg (by omega),
      if_neg (by omega)]

theorem foldr_bytes_mod (e : Nat) :
    ∀ (n : Nat) (a : Nat),
      (List.range n).foldr (fun t acc => acc * 256 + e / 256 ^ t % 256) a =
        a * 256 ^ n + e % 256 ^ n := by
  intro n
  induction n with
  | zero => intro a; simp [Nat.mod_one]
  | succ m ih =>
    intro a
    rw [List.range_succ, List.foldr_append]
    simp only [List.foldr]
    rw [ih]
    have : e % 256 ^ (m + 1) = e % 256 ^ m + 256 ^ m * (e / 256 ^ m % 256) :=
      Nat.mod_pow_succ
    ring_nf
    ring_nf at this
    omega

theorem List.foldr_congr' {α β : Type _} (f g : α → β → β) {b : β} :
    ∀ {l : List α}, (∀ a ∈ l, ∀ y, f a y = g a y) → l.foldr f b = l.foldr g b := by
  intro l
  induction l with
  | nil => intro _; rfl
  | cons x xs ih =>
    intro h
    simp only [List.foldr]
    rw [h x (by simp), ih (fun a ha y => h a (by simp [ha]) y)]

/-- Decoding an encoded snapshot succeeds and recovers every field (up to
the `u8`/`u64` reductions that the byte encoding imposes). -/
theorem decode_encode (sv : Save) :
    decodeSave (saveBytes sv) = some
      { grid := fun y x =>
          if y < 9 ∧ x < 9 then
            ⟨(sv.grid y x).value % 256, (sv.grid y x).flags % 256⟩
          else ⟨0, 0⟩,
        solution := fun y x =>
          if y < 9 ∧ x < 9 then sv.solution y x % 256 else 0,
        difficulty := sv.difficulty,
        elapsed := sv.elapsed % 2 ^ 64,
        checks := sv.checks % 256,
        hints := sv.hints % 256 } := by
  have hdlt := diffTag_lt_four sv.difficulty
  have htag0 : (saveBytes sv).getD 243 0 = diffTag sv.difficulty := by
    rw [show (243 : Nat) = 243 + 0 from rfl, saveBytes_getD _ _ (by omega),
        saveByte_diff sv 0 (by omega)]
    rw [pow_zero, Nat.div_one]
    exact Nat.mod_eq_of_lt (by omega)
  have htag1 : (saveBytes sv).getD 244 0 = 0 := by
    rw [show (244 : Nat) = 243 + 1 from rfl, saveBytes_getD _ _ (by omega),
        saveByte_diff sv 1 (by omega),
        Nat.div_eq_of_lt (show diffTag sv.difficulty < 256 ^ 1 by norm_num; omega)]
  have htag2 : (saveBytes sv).getD 245 0 = 0 := by
    rw [show (245 : Nat) = 243 + 2 from rfl, saveBytes_getD _ _ (by omega),
        saveByte_diff sv 2 (by omega),
        Nat.div_eq_of_lt (show diffTag sv.difficulty < 256 ^ 2 by norm_num; omega)]
  have htag3 : (saveBytes sv).getD 246 0 = 0 := by
    rw [show (246 : Nat) = 243 + 3 from rfl, saveBytes_getD _ _ (by omega),
        saveByte_diff sv 3 (by omega),
        Nat.div_eq_of_lt (show diffTag sv.difficulty < 256 ^ 3 by norm_num; omega)]
  unfold decodeSave
  rw [if_pos ⟨saveBytes_length sv, by rw [htag0]; exact diffTag_lt_four _,
      htag1, htag2, htag3⟩]
  congr 1
  simp only [Save.mk.injEq]
  refine ⟨?_, ?_, ?_, ?_, ?_, ?_⟩
  · funext y x
    by_cases h : y < 9 ∧ x < 9
    · rw [if_pos h, if_pos h]
      obtain ⟨hy, hx⟩ := h
      rw [saveBytes_getD _ _ (by omega), saveBytes_getD _ _ (by omega),
          saveByte_grid_value sv y x hy hx, saveByte_grid_flags sv y x hy hx]
    · rw [if_neg h, if_neg h]
  · funext y x
    by_cases h : y < 9 ∧ x < 9
    · rw [if_pos h, if_pos h]
      obtain ⟨hy, hx⟩ := h
      rw [saveBytes_getD _ _ (by omega), saveByte_solution sv y x hy hx]
    · rw [if_neg h, if_neg h]
  · rw [htag0, tagDiff_diffTag]
  · rw [List.foldr_congr'
        (fun t acc => acc * 256 + (saveBytes sv).getD (247 + t) 0)
        (fun t acc => acc * 256 + sv.elapsed / 256 ^ t % 256)
        (fun t ht y => by
          have ht8 := List.mem_range.mp ht
          dsimp only
          rw [saveBytes_getD _ _ (by omega), saveByte_elapsed sv t ht8]),
        foldr_bytes_mod]
    norm_num
  · rw [saveBytes_getD _ _ (by omega), saveByte_checks]
  · rw [saveBytes_getD _ _ (by omega), saveByte_hints]

/-- C4: `load(save(s))` succeeds and reproduces the puzzle grid, solution
grid, difficulty and budget counters exactly, with the elapsed time
truncated to whole seconds.  (The bounds are the `u8`/`u64` ranges that the
source's field types enforce by construction.) -/
theorem load_save_roundtrip :
    ∀ (s : Sudoku) (now now2 : Nat),
      (∀ y < 9, ∀ x < 9, (s.grid y x).value < 256 ∧ (s.grid y x).flags < 256) →
      (∀ y < 9, ∀ x < 9, s.solution y x < 256) →
      s.checks < 256 → s.hints < 256 →
      s.elapsedAt now / 1000000000 < 2 ^ 64 →
      ∃ s2, Sudoku.load (s.save now) now2 = some s2 ∧
        (∀ y < 9, ∀ x < 9, s2.grid y x = s.grid y x) ∧
        (∀ y < 9, ∀ x < 9, s2.solution y x = s.solution y x) ∧
        s2.difficulty = s.difficulty ∧
        s2.checks = s.checks ∧ s2.hints = s.hints ∧
        s2.elapsed = s.elapsedAt now / 1000000000 * 1000000000 := by
  intro s now now2 hcell hsol hchecks hhints hsecs
  refine ⟨Sudoku.from_save
    { grid := fun y x =>
        if y < 9 ∧ x < 9 then
          ⟨(s.grid y x).value % 256, (s.grid y x).flags % 256⟩
        else ⟨0, 0⟩,
      solution := fun y x => if y < 9 ∧ x < 9 then s.solution y x % 256 else 0,
      difficulty := s.difficulty,
      elapsed := (s.elapsedAt now / 1000000000) % 2 ^ 64,
      checks := s.checks % 256,
      hints := s.hints % 256 } now2, ?_, ?_, ?_, rfl, ?_, ?_, ?_⟩
  · rw [Sudoku.load, Sudoku.save, decode_encode]
    rfl
  · intro y hy x hx
    show (if y < 9 ∧ x < 9 then
        (⟨(s.grid y x).value % 256, (s.grid y x).flags % 256⟩ : Cell)
      else ⟨0, 0⟩) = s.grid y x
    rw [if_pos ⟨hy, hx⟩, Nat.mod_eq_of_lt (hcell y hy x hx).1,
        Nat.mod_eq_of_lt (hcell y hy x hx).2]
  · intro y hy x hx
    show (if y < 9 ∧ x < 9 then s.solution y x % 256 else 0) = s.solution y x
    rw [if_pos ⟨hy, hx⟩, Nat.mod_eq_of_lt (hsol y hy x hx)]
  · exact Nat.mod_eq_of_lt hchecks
  · exact Nat.mod_eq_of_lt hhints
  · show (s.elapsedAt now / 1000000000) % 2 ^ 64 * 1000000000 = _
    rw [Nat.mod_eq_of_lt hsecs]

theorem load_save_roundtrip_witness :
    ∃ s2, Sudoku.load (demoSession.save 100) 7 = some s2 ∧
      (∀ y < 9, ∀ x < 9, s2.grid y x = demoSession.grid y x) ∧
      (∀ y < 9, ∀ x < 9, s2.solution y x = demoSession.solution y x) ∧
      s2.difficulty = demoSession.difficulty ∧
      s2.checks = demoSession.checks ∧ s2.hints = demoSession.hints ∧
      s2.elapsed = demoSession.elapsedAt 100 / 1000000000 * 1000000000 :=
  load_save_roundtrip demoSession 100 7
    (by decide) (by decide) (by decide) (by decide) (by decide)

/-- C10: a loaded session is always freshly `Running` with an empty move
history and the clock restarted from the stored whole-second count, and
`save` depends on nothing but the two grids, the difficulty, the
whole-second elapsed time and the two budget counters (in particular not
on the state or the undo history of the saved session). -/
theorem load_fresh_session :
    (∀ (bytes : List Nat) (now : Nat) (s2 : Sudoku),
      Sudoku.load bytes now = some s2 →
      s2.state = GameState.Running ∧ s2.movements = [] ∧ s2.start = some now ∧
      ∃ sv, decodeSave bytes = some sv ∧
        s2.elapsed = sv.elapsed * 1000000000) ∧
    (∀ (s1 s2 : Sudoku) (now1 now2 : Nat),
      (∀ y < 9, ∀ x < 9, s1.grid y x = s2.grid y x) →
      (∀ y < 9, ∀ x < 9, s1.solution y x = s2.solution y x) →
      s1.difficulty = s2.difficulty →
      s1.elapsedAt now1 / 1000000000 = s2.elapsedAt now2 / 1000000000 →
      s1.checks = s2.checks → s1.hints = s2.hints →
      s1.save now1 = s2.save now2) := by
  constructor
  · intro bytes now s2 h
    rw [Sudoku.load] at h
    obtain ⟨sv, hsv, hs2⟩ := Option.map_eq_some'.mp h
    subst hs2
    exact ⟨rfl, rfl, rfl, sv, hsv, rfl⟩
  · intro s1 s2 now1 now2 hgrid hsol hdiff hel hch hh
    rw [Sudoku.save, Sudoku.save]
    unfold saveBytes
    apply List.map_congr_left
    intro i hi
    have hi257 := List.mem_range.mp hi
    unfold saveByte Sudoku.toSave
    dsimp only
    by_cases h1 : i < 162
    · rw [if_pos h1, if_pos h1,
        hgrid (i / 2 / 9) (by omega) (i / 2 % 9) (by omega)]
    · rw [if_neg h1, if_neg h1]
      by_cases h2 : i < 243
      · rw [if_pos h2, if_pos h2,
          hsol ((i - 162) / 9) (by omega) ((i - 162) % 9) (by omega)]
      · rw [if_neg h2, if_neg h2]
        by_cases h3 : i < 247
        · rw [if_pos h3, if_pos h3, hdiff]
        · rw [if_neg h3, if_neg h3]
          by_cases h4 : i < 255
          · rw [if_pos h4, if_pos h4, hel]
          · rw [if_neg h4, if_neg h4]
            by_cases h5 : i = 255
            · rw [if_pos h5, if_pos h5, hch]
            · rw [if_neg h5, if_neg h5, hh]

theorem load_fresh_session_witness :
    (∃ s2, Sudoku.load (demoSession.save 100) 7 = some s2 ∧
      s2.state = GameState.Running ∧ s2.movements = [] ∧ s2.start = some 7) ∧
    demoSession.save 100 = pausedSession.save 33 := by
  have hload : Sudoku.load (demoSession.save 100) 7 = some (Sudoku.from_save
      { grid := fun y x =>
          if y < 9 ∧ x < 9 then
            ⟨((Sudoku.toSave demoSession 100).grid y x).value % 256,
             ((Sudoku.toSave demoSession 100).grid y x).flags % 256⟩
          else ⟨0, 0⟩,
        solution := fun y x =>
          if y < 9 ∧ x < 9 then
            (Sudoku.toSave demoSession 100).solution y x % 256
          else 0,
        difficulty := (Sudoku.toSave demoSession 100).difficulty,
        elapsed := (Sudoku.toSave demoSession 100).elapsed % 2 ^ 64,
        checks := (Sudoku.toSave demoSession 100).checks % 256,
        hints := (Sudoku.toSave demoSession 100).hints % 256 } 7) := by
    rw [Sudoku.load, Sudoku.save, decode_encode]
    rfl
  obtain ⟨h1, h2, h3, -⟩ := load_fresh_session.1 (demoSession.save 100) 7 _ hload
  exact ⟨⟨_, hload, h1, h2, h3⟩,
    load_fresh_session.2 demoSession pausedSession 100 33
      (fun _ _ _ _ => rfl) (fun _ _ _ _ => rfl) rfl (by decide) rfl rfl⟩

/-! ## Claim C1: generate_puzzle preserves unique solvability -/

theorem Board.findEmpty_of_full (b : Board) (hb : Board.Full b) :
    Board.findEmpty b = none := by
  unfold Board.findEmpty
  rw [List.findSome?_eq_none_iff]
  intro r hr
  rw [List.findSome?_eq_none_iff]
  intro c hc
  rw [if_neg (hb r (List.mem_range.mp hr) c (List.mem_range.mp hc))]

theorem Board.count_solutions_of_full (b : Board) (hb : Board.Full b) :
    Board.count_solutions b 2 = 1 := by
  rw [Board.count_solutions, show Board.SIZE * Board.SIZE + 1 = 81 + 1 from rfl]
  rw [Board.solveWithLimit, Board.findEmpty_of_full b hb]

/-- The digging loop keeps the bounded solution count at exactly 1 and
never stores anything but the seed's value or 0. -/
theorem Board.generate_puzzle_loop (seed : Board) :
    ∀ (l : List (Nat × Nat)) (p : Board),
      l.Nodup →
      Board.count_solutions p 2 = 1 →
      (∀ pos ∈ l, Board.getCell p pos.1 pos.2 =
        Board.getCell seed pos.1 pos.2) →
      (∀ r c, Board.getCell p r c = Board.getCell seed r c ∨
        Board.getCell p r c = 0) →
      Board.count_solutions
        (l.foldl
          (fun puzzle pos =>
            let backup := Board.getCell seed pos.1 pos.2
            let dug := Board.setCell puzzle pos.1 pos.2 0
            if Board.count_solutions dug 2 ≠ 1 then
              Board.setCell dug pos.1 pos.2 backup
            else dug)
          p) 2 = 1 ∧
      (∀ r c,
        Board.getCell
          (l.foldl
            (fun puzzle pos =>
              let backup := Board.getCell seed pos.1 pos.2
              let dug := Board.setCell puzzle pos.1 pos.2 0
              if Board.count_solutions dug 2 ≠ 1 then
                Board.setCell dug pos.1 pos.2 backup
              else dug)
            p) r c = Board.getCell seed r c ∨
        Board.getCell
          (l.foldl
            (fun puzzle pos =>
              let backup := Board.getCell seed pos.1 pos.2
              let dug := Board.setCell puzzle pos.1 pos.2 0
              if Board.count_solutions dug 2 ≠ 1 then
                Board.setCell dug pos.1 pos.2 backup
              else dug)
            p) r c = 0) := by
  intro l
  induction l with
  | nil =>
    intro p _ hcount _ hagree
    exact ⟨hcount, hagree⟩
  | cons hd tl ih =>
    intro p hnd hcount hl hagree
    obtain ⟨hne, hndtl⟩ := List.nodup_cons.mp hnd
    rw [List.foldl_cons]
    by_cases htest : Board.count_solutions (Board.setCell p hd.1 hd.2 0) 2 = 1
    · -- the dig is kept
      have hstep :
          (let backup := Board.getCell seed hd.1 hd.2
           let dug := Board.setCell p hd.1 hd.2 0
           if Board.count_solutions dug 2 ≠ 1 then
             Board.setCell dug hd.1 hd.2 backup
           else dug) = Board.setCell p hd.1 hd.2 0 := by
        dsimp only
        rw [if_neg (by simpa using htest)]
      rw [hstep]
      refine ih (Board.setCell p hd.1 hd.2 0) hndtl htest ?_ ?_
      · intro pos hpos
        have hpos_ne : (pos.1, pos.2) ≠ (hd.1, hd.2) := by
          intro hcontra
          apply hne
          have : pos = hd := by
            obtain ⟨h1, h2⟩ := Prod.mk.injEq .. |>.mp hcontra
            exact Prod.ext h1 h2
          rw [← this]
          exact hpos
        rw [Board.getCell_setCell_ne p 0 hpos_ne]
        exact hl pos (List.mem_cons_of_mem hd hpos)
      · intro r c
        rcases Board.getCell_setCell_cases p hd.1 hd.2 0 r c with h | h
        · rw [h]; exact hagree r c
        · right; exact h
    · -- the dig is reverted: the board is unchanged
      have hback : Board.getCell seed hd.1 hd.2 = Board.getCell p hd.1 hd.2 :=
        (hl hd (List.mem_cons_self hd tl)).symm
      have hstep :
          (let backup := Board.getCell seed hd.1 hd.2
           let dug := Board.setCell p hd.1 hd.2 0
           if Board.count_solutions dug 2 ≠ 1 then
             Board.setCell dug hd.1 hd.2 backup
           else dug) = p := by
        dsimp only
        rw [if_pos (by simpa using htest), Board.setCell_setCell, hback,
          Board.setCell_getCell_self]
      rw [hstep]
      exact ih p hndtl hcount
        (fun pos hpos => hl pos (List.mem_cons_of_mem hd hpos)) hagree

/-- C1: digging from a fully filled seed board always returns a puzzle on
which the bounded solution counter at limit 2 reports exactly one
solution, and whose filled cells all agree with the seed (the unique
solution is the seed board). -/
theorem generate_puzzle_unique_solution :
    ∀ (seed : Board) (positions : List (Nat × Nat)) (num_holes : Nat),
      Board.Full seed → positions.Nodup →
      Board.count_solutions
        (Board.generate_puzzle seed positions num_holes) 2 = 1 ∧
      (∀ r c,
        Board.getCell (Board.generate_puzzle seed positions num_holes) r c =
          Board.getCell seed r c ∨
        Board.getCell (Board.generate_puzzle seed positions num_holes) r c =
          0) := by
  intro seed positions n hfull hnd
  unfold Board.generate_puzzle
  exact Board.generate_puzzle_loop seed (positions.take n) seed
    (hnd.sublist (List.take_sublist n positions))
    (Board.count_solutions_of_full seed hfull)
    (fun _ _ => rfl) (fun _ _ => Or.inl rfl)

theorem generate_puzzle_unique_solution_witness :
    Board.count_solutions (Board.generate_puzzle wikiBoard [(0, 0)] 1) 2 = 1 ∧
    (Board.getCell (Board.generate_puzzle wikiBoard [(0, 0)] 1) 3 3 =
        Board.getCell wikiBoard 3 3 ∨
      Board.getCell (Board.generate_puzzle wikiBoard [(0, 0)] 1) 3 3 = 0) := by
  obtain ⟨h1, h2⟩ :=
    generate_puzzle_unique_solution wikiBoard [(0, 0)] 1 (by decide) (by decide)
  exact ⟨h1, h2 3 3⟩

/-! ## Claim C2: supporting lemmas -/

namespace Board

theorem shaped_empty : Shaped Board.empty := by
  constructor
  · simp [Board.empty, Board.SIZE]
  · intro row hrow
    rw [List.eq_of_mem_replicate hrow]
    simp [Board.SIZE]

theorem shaped_setCell (b : Board) (h : Shaped b) (r c v : Nat) :
    Shaped (setCell b r c v) := by
  obtain ⟨hlen, hrows⟩ := h
  rcases Nat.lt_or_ge r b.length with hr | hr
  · refine ⟨by simp [setCell, hlen], ?_⟩
    intro row hrow
    rcases List.mem_or_eq_of_mem_set hrow with hmem | heq
    · exact hrows row hmem
    · subst heq
      rw [List.length_set, List.getD_eq_getElem _ _ hr]
      exact hrows _ (List.getElem_mem hr)
  · rw [setCell, List.set_eq_of_length_le hr]
    exact ⟨hlen, hrows⟩

theorem row_length_of_shaped (b : Board) (h : Shaped b) (r : Nat) (hr : r < 9) :
    (b.getD r []).length = 9 := by
  have hlen : r < b.length := by rw [h.1]; exact hr
  rw [List.getD_eq_getElem _ _ hlen]
  exact h.2 _ (List.getElem_mem hlen)

theorem getCell_setCell_self' (b : Board) (h : Shaped b) {r c : Nat}
    (v : Nat) (hr : r < 9) (hc : c < 9) :
    getCell (setCell b r c v) r c = v := by
  rw [getCell_setCell]
  rw [if_pos ⟨rfl, by rw [h.1]; exact hr, rfl,
    by rw [row_length_of_shaped b h r hr]; exact hc⟩]

theorem digits19_nodup : digits19.Nodup := by decide

theorem mem_digits19 {v : Nat} : v ∈ digits19 ↔ 1 ≤ v ∧ v ≤ 9 := by
  simp only [digits19, List.mem_range']
  constructor
  · rintro ⟨i, hi, rfl⟩
    omega
  · rintro ⟨hv1, hv2⟩
    exact ⟨v - 1, by omega, by omega⟩

theorem digits19_ne_zero {v : Nat} (h : v ∈ digits19) : v ≠ 0 := by
  intro hv
  subst hv
  revert h
  decide

/-- `is_valid` in propositional form. -/
theorem is_valid_true_iff (b : Board) (row col v : Nat) :
    is_valid b row col v = true ↔
      (∀ i < 9, getCell b row i ≠ v ∧ getCell b i col ≠ v) ∧
      ∀ i < 3, ∀ j < 3,
        getCell b (row / 3 * 3 + i) (col / 3 * 3 + j) ≠ v := by
  unfold is_valid SIZE SUBGRID_SIZE
  simp only [Bool.and_eq_true, List.all_eq_true, List.mem_range,
    Bool.not_eq_eq_eq_not, Bool.not_true, beq_eq_false_iff_ne, ne_eq]

/-- Cell values of a solved board are digits 1–9. -/
theorem solved_mem (S : Board) (hS : isSolvedBoard S) (r c : Nat)
    (hr : r < 9) (hc : c < 9) : getCell S r c ∈ digits19 := by
  have hperm := hS.1 r hr
  have : getCell S r c ∈ rowList S r := by
    unfold rowList
    exact List.mem_map.mpr ⟨c, List.mem_range.mpr hc, rfl⟩
  exact hperm.mem_iff.mp this

theorem solved_row_inj (S : Board) (hS : isSolvedBoard S) (r : Nat)
    (hr : r < 9) {i j : Nat} (hi : i < 9) (hj : j < 9)
    (h : getCell S r i = getCell S r j) : i = j := by
  have hnd : (rowList S r).Nodup := (hS.1 r hr).symm.nodup digits19_nodup
  unfold rowList at hnd
  exact List.inj_on_of_nodup_map hnd (List.mem_range.mpr hi)
    (List.mem_range.mpr hj) h

theorem solved_col_inj (S : Board) (hS : isSolvedBoard S) (c : Nat)
    (hc : c < 9) {i j : Nat} (hi : i < 9) (hj : j < 9)
    (h : getCell S i c = getCell S j c) : i = j := by
  have hnd : (colList S c).Nodup := (hS.2.1 c hc).symm.nodup digits19_nodup
  unfold colList at hnd
  exact List.inj_on_of_nodup_map hnd (List.mem_range.mpr hi)
    (List.mem_range.mpr hj) h

theorem solved_box_inj (S : Board) (hS : isSolvedBoard S) (br bc : Nat)
    (hbr : br < 3) (hbc : bc < 3) (t1 t2 : Nat) (h1 : t1 < 9) (h2 : t2 < 9)
    (h : getCell S (br * 3 + t1 / 3) (bc * 3 + t1 % 3) =
      getCell S (br * 3 + t2 / 3) (bc * 3 + t2 % 3)) : t1 = t2 := by
  have hnd : (boxList S br bc).Nodup :=
    (hS.2.2 br hbr bc hbc).symm.nodup digits19_nodup
  unfold boxList at hnd
  exact List.inj_on_of_nodup_map hnd (List.mem_range.mpr h1)
    (List.mem_range.mpr h2) h

/-- Any two distinct in-range cells of a solved board that share a unit
hold distinct values. -/
theorem solved_distinct (S : Board) (hS : isSolvedBoard S)
    {r1 c1 r2 c2 : Nat} (h1 : r1 < 9) (h2 : c1 < 9) (h3 : r2 < 9)
    (h4 : c2 < 9) (hne : (r1, c1) ≠ (r2, c2))
    (hshare : r1 = r2 ∨ c1 = c2 ∨ (r1 / 3 = r2 / 3 ∧ c1 / 3 = c2 / 3)) :
    getCell S r1 c1 ≠ getCell S r2 c2 := by
  intro heq
  rcases hshare with h | h | ⟨hb1, hb2⟩
  · subst h
    exact hne (by rw [solved_row_inj S hS r1 h1 h2 h4 heq])
  · subst h
    exact hne (by rw [solved_col_inj S hS c1 h2 h1 h3 heq])
  · have e1 : r1 / 3 * 3 + (3 * (r1 % 3) + c1 % 3) / 3 = r1 := by omega
    have e2 : c1 / 3 * 3 + (3 * (r1 % 3) + c1 % 3) % 3 = c1 := by omega
    have e3 : r1 / 3 * 3 + (3 * (r2 % 3) + c2 % 3) / 3 = r2 := by omega
    have e4 : c1 / 3 * 3 + (3 * (r2 % 3) + c2 % 3) % 3 = c2 := by omega
    have hinj := solved_box_inj S hS (r1 / 3) (c1 / 3) (by omega) (by omega)
      (3 * (r1 % 3) + c1 % 3) (3 * (r2 % 3) + c2 % 3)
      (by omega) (by omega)
      (by rw [e1, e2, e3, e4]; exact heq)
    exact hne (Prod.ext (by omega) (by omega))

end Board

namespace Board

/-- A board that a solved board extends is consistent. -/
theorem consistent_of_extendsTo (b S : Board) (hS : isSolvedBoard S)
    (h : ExtendsTo b S) : Consistent b := by
  intro r1 h1 c1 h2 r2 h3 c2 h4 hne hshare hnz
  by_cases hnz2 : getCell b r2 c2 = 0
  · rw [hnz2]
    exact hnz
  · rw [← h r1 h1 c1 h2 hnz, ← h r2 h3 c2 h4 hnz2]
    exact solved_distinct S hS h1 h2 h3 h4 hne hshare

/-- A board that a solved board extends holds only digits 1–9. -/
theorem valuesIn19_of_extendsTo (b S : Board) (hS : isSolvedBoard S)
    (h : ExtendsTo b S) : ValuesIn19 b := by
  intro r hr c hc
  by_cases hz : getCell b r c = 0
  · exact Or.inl hz
  · right
    rw [← h r hr c hc hz]
    exact solved_mem S hS r c hr hc

theorem extendsTo_setCell (b S : Board) (h : ExtendsTo b S) (row col v : Nat)
    (hv : getCell S row col = v) : ExtendsTo (setCell b row col v) S := by
  intro r hr c hc hnz
  rw [getCell_setCell] at hnz ⊢
  by_cases hcond : row = r ∧ row < b.length ∧ col = c ∧
      col < (b.getD row []).length
  · rw [if_pos hcond]
    obtain ⟨e1, -, e2, -⟩ := hcond
    rw [← e1, ← e2, hv]
  · rw [if_neg hcond]
    rw [if_neg hcond] at hnz
    exact h r hr c hc hnz

/-- On a board extended by a solved board, the solution's digit is always
accepted at an empty cell. -/
theorem is_valid_of_extendsTo (b S : Board) (hS : isSolvedBoard S)
    (hext : ExtendsTo b S) (row col : Nat) (hrow : row < 9) (hcol : col < 9)
    (hempty : getCell b row col = 0) :
    is_valid b row col (getCell S row col) = true := by
  rw [is_valid_true_iff]
  have hv : getCell S row col ∈ digits19 := solved_mem S hS row col hrow hcol
  refine ⟨fun i hi => ⟨?_, ?_⟩, fun i hi j hj => ?_⟩
  · intro he
    have hnz : getCell b row i ≠ 0 := by
      rw [he]; exact digits19_ne_zero hv
    have hSe : getCell S row i = getCell S row col := by
      rw [hext row hrow i hi hnz, he]
    have hic : i = col := solved_row_inj S hS row hrow hi hcol hSe
    rw [hic] at hnz
    exact hnz hempty
  · intro he
    have hnz : getCell b i col ≠ 0 := by
      rw [he]; exact digits19_ne_zero hv
    have hSe : getCell S i col = getCell S row col := by
      rw [hext i hi col hcol hnz, he]
    have hir : i = row := solved_col_inj S hS col hcol hi hrow hSe
    rw [hir] at hnz
    exact hnz hempty
  · intro he
    have hr2 : row / 3 * 3 + i < 9 := by omega
    have hc2 : col / 3 * 3 + j < 9 := by omega
    have hnz : getCell b (row / 3 * 3 + i) (col / 3 * 3 + j) ≠ 0 := by
      rw [he]; exact digits19_ne_zero hv
    have hSe : getCell S (row / 3 * 3 + i) (col / 3 * 3 + j) =
        getCell S row col := by
      rw [hext _ hr2 _ hc2 hnz, he]
    -- translate both cells into box positions of box (row / 3, col / 3)
    have e1 : row / 3 * 3 + (3 * i + j) / 3 = row / 3 * 3 + i := by omega
    have e2 : col / 3 * 3 + (3 * i + j) % 3 = col / 3 * 3 + j := by omega
    have e3 : row / 3 * 3 + (3 * (row % 3) + col % 3) / 3 = row := by omega
    have e4 : col / 3 * 3 + (3 * (row % 3) + col % 3) % 3 = col := by omega
    have hinj := solved_box_inj S hS (row / 3) (col / 3) (by omega) (by omega)
      (3 * i + j) (3 * (row % 3) + col % 3) (by omega) (by omega)
      (by rw [e1, e2, e3, e4]; exact hSe)
    have : row / 3 * 3 + i = row ∧ col / 3 * 3 + j = col := by omega
    rw [this.1, this.2] at hnz
    exact hnz hempty

/-- Placing an accepted digit preserves consistency. -/
theorem consistent_setCell (b : Board) (hsh : Shaped b) (hb : Consistent b)
    (row col v : Nat) (hrow : row < 9) (hcol : col < 9)
    (hempty : getCell b row col = 0) (hv : is_valid b row col v = true) :
    Consistent (setCell b row col v) := by
  obtain ⟨hval, hbox⟩ := (is_valid_true_iff b row col v).mp hv
  have hget : ∀ r c, r < 9 → c < 9 → (r, c) ≠ (row, col) →
      getCell (setCell b row col v) r c = getCell b r c := by
    intro r c _ _ hne
    exact getCell_setCell_ne b v hne
  have hcell : ∀ r c, r < 9 → c < 9 → (r, c) ≠ (row, col) →
      (r = row ∨ c = col ∨ (r / 3 = row / 3 ∧ c / 3 = col / 3)) →
      getCell b r c ≠ v := by
    intro r c hr hc hne hshare
    rcases hshare with h | h | ⟨h1, h2⟩
    · subst h
      exact (hval c hc).1
    · subst h
      exact (hval r hr).2
    · have e1 : row / 3 * 3 + r % 3 = r := by omega
      have e2 : col / 3 * 3 + c % 3 = c := by omega
      have := hbox (r % 3) (by omega) (c % 3) (by omega)
      rw [e1, e2] at this
      exact this
  intro r1 h1 c1 h2 r2 h3 c2 h4 hne hshare hnz
  by_cases e1 : (r1, c1) = (row, col)
  · have er : r1 = row := (Prod.mk.injEq .. |>.mp e1).1
    have ec : c1 = col := (Prod.mk.injEq .. |>.mp e1).2
    subst er; subst ec
    have e2 : (r2, c2) ≠ (r1, c1) := fun hc => hne hc.symm
    rw [getCell_setCell_self' b hsh v h1 h2, hget r2 c2 h3 h4 (e1 ▸ e2)]
    intro heq
    refine hcell r2 c2 h3 h4 (e1 ▸ e2) ?_ heq.symm
    rcases hshare with h | h | h
    · exact Or.inl h.symm
    · exact Or.inr (Or.inl h.symm)
    · exact Or.inr (Or.inr ⟨h.1.symm, h.2.symm⟩)
  · by_cases e2 : (r2, c2) = (row, col)
    · have er : r2 = row := (Prod.mk.injEq .. |>.mp e2).1
      have ec : c2 = col := (Prod.mk.injEq .. |>.mp e2).2
      subst er; subst ec
      rw [getCell_setCell_self' b hsh v h3 h4, hget r1 c1 h1 h2 e1]
      rw [hget r1 c1 h1 h2 e1] at hnz
      exact hcell r1 c1 h1 h2 e1 hshare
    · rw [hget r1 c1 h1 h2 e1, hget r2 c2 h3 h4 e2]
      rw [hget r1 c1 h1 h2 e1] at hnz
      exact hb r1 h1 c1 h2 r2 h3 c2 h4 hne hshare hnz

/-- Placing a digit 1–9 preserves the value range. -/
theorem valuesIn19_setCell (b : Board) (hb : ValuesIn19 b) (row col v : Nat)
    (hv19 : v ∈ digits19) : ValuesIn19 (setCell b row col v) := by
  intro r hr c hc
  rcases getCell_setCell_cases b row col v r c with h | h
  · rw [h]; exact hb r hr c hc
  · rw [h]; exact Or.inr hv19

end Board

namespace Board

/-- Soundness of the digit loop of `fill_remaining`: whatever board it
returns is reached from `b` by accepted placements at `(row, col)` and by
calls of the continuation `f`, so the invariants carry over; on success
every cell from position `(row, col)` on is filled. -/
theorem fillLoop_sound (f : Board → Nat → Bool × Board × Nat)
    (row col : Nat) (hrow : row ≤ 8) (hcol : col ≤ 8)
    (hf : ∀ b2 k2, Shaped b2 → Consistent b2 → ValuesIn19 b2 →
      Shaped (f b2 k2).2.1 ∧ Consistent (f b2 k2).2.1 ∧
      ValuesIn19 (f b2 k2).2.1 ∧
      (∀ r < 9, ∀ c < 9, getCell b2 r c ≠ 0 →
        getCell (f b2 k2).2.1 r c = getCell b2 r c) ∧
      ((f b2 k2).1 = true → ∀ r < 9, ∀ c < 9,
        9 * row + (col + 1) ≤ 9 * r + c → getCell (f b2 k2).2.1 r c ≠ 0)) :
    ∀ (nums : List Nat) (b : Board) (k : Nat),
      (∀ v ∈ nums, v ∈ digits19) →
      Shaped b → Consistent b → ValuesIn19 b → getCell b row col = 0 →
      Shaped (fillLoop f b row col nums k).2.1 ∧
      Consistent (fillLoop f b row col nums k).2.1 ∧
      ValuesIn19 (fillLoop f b row col nums k).2.1 ∧
      (∀ r < 9, ∀ c < 9, getCell b r c ≠ 0 →
        getCell (fillLoop f b row col nums k).2.1 r c = getCell b r c) ∧
      ((fillLoop f b row col nums k).1 = true → ∀ r < 9, ∀ c < 9,
        9 * row + col ≤ 9 * r + c →
        getCell (fillLoop f b row col nums k).2.1 r c ≠ 0) := by
  intro nums
  induction nums with
  | nil =>
    intro b k _ hsh hcons hvals hempty
    refine ⟨hsh, hcons, hvals, fun _ _ _ _ _ => rfl, ?_⟩
    intro h
    exact absurd h (by simp [fillLoop])
  | cons num rest ih =>
    intro b k hnums hsh hcons hvals hempty
    rw [fillLoop]
    by_cases hv : is_valid b row col num = true
    · rw [if_pos hv]
      have hnum19 : num ∈ digits19 := hnums num (List.mem_cons_self num rest)
      have hsh2 : Shaped (setCell b row col num) := shaped_setCell b hsh _ _ _
      have hcons2 : Consistent (setCell b row col num) :=
        consistent_setCell b hsh hcons row col num (by omega) (by omega)
          hempty hv
      have hvals2 : ValuesIn19 (setCell b row col num) :=
        valuesIn19_setCell b hvals row col num hnum19
      obtain ⟨hfs, hfc, hfv, hfp, hff⟩ :=
        hf (setCell b row col num) k hsh2 hcons2 hvals2
      rcases hres : f (setCell b row col num) k with ⟨ok2, b2, k2⟩
      rw [hres] at hfs hfc hfv hfp hff
      cases ok2 with
      | true =>
        refine ⟨hfs, hfc, hfv, ?_, ?_⟩
        · intro r hr c hc hnz
          have hne : (r, c) ≠ (row, col) := by
            intro he
            rw [(Prod.mk.injEq .. |>.mp he).1, (Prod.mk.injEq .. |>.mp he).2]
              at hnz
            exact hnz hempty
          have hset : getCell (setCell b row col num) r c = getCell b r c :=
            getCell_setCell_ne b num hne
          rw [hfp r hr c hc (by rw [hset]; exact hnz), hset]
        · intro _ r hr c hc hpos
          by_cases he : (r, c) = (row, col)
          · have e1 : r = row := (Prod.mk.injEq .. |>.mp he).1
            have e2 : c = col := (Prod.mk.injEq .. |>.mp he).2
            subst e1; subst e2
            have hset : getCell (setCell b r c num) r c = num :=
              getCell_setCell_self' b hsh num hr hc
            rw [hfp r hr c hc (by rw [hset]; exact digits19_ne_zero hnum19),
              hset]
            exact digits19_ne_zero hnum19
          · have hpos2 : 9 * row + (col + 1) ≤ 9 * r + c := by
              rcases Nat.lt_or_ge (9 * row + col) (9 * r + c) with h | h
              · omega
              · exfalso
                apply he
                have : 9 * r + c = 9 * row + col := by omega
                exact Prod.ext (by omega) (by omega)
            exact hff rfl r hr c hc hpos2
      | false =>
        exact ih b k2 (fun v hv2 => hnums v (List.mem_cons_of_mem num hv2))
          hsh hcons hvals hempty
    · rw [if_neg hv]
      exact ih b k (fun v hv2 => hnums v (List.mem_cons_of_mem num hv2))
        hsh hcons hvals hempty

end Board

namespace Board

/-- Soundness of `fill_remaining`: the returned board refines the input by
accepted placements only (consistency and the 1–9 range are preserved,
filled cells are never overwritten), and on success every cell from the
current position on is filled. -/
theorem fill_remaining_sound (rng : Nat → List Nat)
    (hrng : ∀ k, ∀ v ∈ rng k, v ∈ digits19) :
    ∀ (fuel row col : Nat) (b : Board) (k : Nat),
      row ≤ 8 → col ≤ 9 → Shaped b → Consistent b → ValuesIn19 b →
      Shaped (fill_remaining rng fuel row col b k).2.1 ∧
      Consistent (fill_remaining rng fuel row col b k).2.1 ∧
      ValuesIn19 (fill_remaining rng fuel row col b k).2.1 ∧
      (∀ r < 9, ∀ c < 9, getCell b r c ≠ 0 →
        getCell (fill_remaining rng fuel row col b k).2.1 r c =
          getCell b r c) ∧
      ((fill_remaining rng fuel row col b k).1 = true → ∀ r < 9, ∀ c < 9,
        9 * row + col ≤ 9 * r + c →
        getCell (fill_remaining rng fuel row col b k).2.1 r c ≠ 0) := by
  intro fuel
  induction fuel with
  | zero =>
    intro row col b k _ _ hsh hcons hvals
    refine ⟨hsh, hcons, hvals, fun _ _ _ _ _ => rfl, ?_⟩
    intro h
    exact absurd h (by simp [fill_remaining])
  | succ fuel ih =>
    intro row col b k hrow hcol hsh hcons hvals
    rw [fill_remaining]
    by_cases h1 : row = SIZE - 1 ∧ col = SIZE
    · rw [if_pos h1]
      have hrow8 : row = 8 := by
        have := h1.1; simpa [SIZE] using this
      have hcol9 : col = 9 := by
        have := h1.2; simpa [SIZE] using this
      refine ⟨hsh, hcons, hvals, fun _ _ _ _ _ => rfl, ?_⟩
      intro _ r hr c hc hpos
      exfalso
      omega
    · rw [if_neg h1]
      by_cases h2 : col = SIZE
      · rw [if_pos h2]
        have hcol9 : col = 9 := by simpa [SIZE] using h2
        have hrow7 : row ≤ 7 := by
          rcases Nat.lt_or_ge row 8 with h | h
          · omega
          · exfalso
            exact h1 ⟨by simp [SIZE]; omega, h2⟩
        obtain ⟨ha, hb2, hc2, hd, he⟩ :=
          ih (row + 1) 0 b (k + 1) (by omega) (by omega) hsh hcons hvals
        refine ⟨ha, hb2, hc2, hd, ?_⟩
        intro hok r hr c hc hpos
        exact he hok r hr c hc (by omega)
      · rw [if_neg h2]
        have hcol8 : col ≤ 8 := by
          rcases Nat.lt_or_ge col 9 with h | h
          · omega
          · exfalso
            exact h2 (by simp [SIZE]; omega)
        by_cases h3 : getCell b row col ≠ 0
        · rw [if_pos h3]
          obtain ⟨ha, hb2, hc2, hd, he⟩ :=
            ih row (col + 1) b (k + 1) (by omega) (by omega) hsh hcons hvals
          refine ⟨ha, hb2, hc2, hd, ?_⟩
          intro hok r hr c hc hpos
          by_cases hsame : 9 * row + col = 9 * r + c
          · have e1 : r = row := by omega
            have e2 : c = col := by omega
            subst e1; subst e2
            rw [hd r hr c hc h3]
            exact h3
          · exact he hok r hr c hc (by omega)
        · rw [if_neg h3]
          push_neg at h3
          exact fillLoop_sound
            (fun b2 k2 => fill_remaining rng fuel row (col + 1) b2 k2)
            row col hrow hcol8
            (fun b2 k2 hs2 hc2 hv2 =>
              ih row (col + 1) b2 k2 (by omega) (by omega) hs2 hc2 hv2)
            (rng k) b (k + 1) (hrng k) hsh hcons hvals h3

end Board

namespace Board

/-- Completeness of the digit loop: if the solution's digit for the
current empty cell is among the offered digits and the continuation
succeeds from every board the solution extends, the loop succeeds. -/
theorem fillLoop_complete (f : Board → Nat → Bool × Board × Nat)
    (S : Board) (hS : isSolvedBoard S) (row col : Nat)
    (hrow : row < 9) (hcol : col < 9)
    (hf : ∀ b2 k2, ExtendsTo b2 S → (f b2 k2).1 = true) :
    ∀ (nums : List Nat) (b : Board) (k : Nat),
      ExtendsTo b S → getCell b row col = 0 →
      getCell S row col ∈ nums →
      (fillLoop f b row col nums k).1 = true := by
  intro nums
  induction nums with
  | nil =>
    intro b k _ _ hmem
    exact absurd hmem (List.not_mem_nil _)
  | cons num rest ih =>
    intro b k hext hempty hmem
    rw [fillLoop]
    by_cases hv : is_valid b row col num = true
    · rw [if_pos hv]
      rcases hres : f (setCell b row col num) k with ⟨ok2, b2, k2⟩
      cases ok2 with
      | true => rfl
      | false =>
        have hne : num ≠ getCell S row col := by
          intro he
          have hTrue : (f (setCell b row col num) k).1 = true :=
            hf _ k (extendsTo_setCell b S hext row col num he.symm)
          rw [hres] at hTrue
          exact Bool.noConfusion hTrue
        apply ih b k2 hext hempty
        rcases List.mem_cons.mp hmem with he | he
        · exact absurd he.symm hne
        · exact he
    · rw [if_neg hv]
      have hne : num ≠ getCell S row col := by
        intro he
        rw [he] at hv
        exact hv (is_valid_of_extendsTo b S hS hext row col hrow hcol hempty)
      apply ih b k hext hempty
      rcases List.mem_cons.mp hmem with he | he
      · exact absurd he.symm hne
      · exact he

/-- Completeness of `fill_remaining`: with enough fuel (the recursion
depth bound), digit lists that offer every digit 1–9, and a solved board
extending the current one, the search succeeds. -/
theorem fill_remaining_complete (rng : Nat → List Nat)
    (hrng : ∀ k, ∀ v ∈ digits19, v ∈ rng k)
    (S : Board) (hS : isSolvedBoard S) :
    ∀ (fuel row col : Nat) (b : Board) (k : Nat),
      (9 - row) * 10 - col ≤ fuel → row ≤ 8 → col ≤ 9 →
      ExtendsTo b S →
      (fill_remaining rng fuel row col b k).1 = true := by
  intro fuel
  induction fuel with
  | zero =>
    intro row col b k hfuel hrow hcol _
    exfalso
    have : (9 - row) * 10 - col ≥ 1 := by omega
    omega
  | succ fuel ih =>
    intro row col b k hfuel hrow hcol hext
    rw [fill_remaining]
    by_cases h1 : row = SIZE - 1 ∧ col = SIZE
    · rw [if_pos h1]
    · rw [if_neg h1]
      by_cases h2 : col = SIZE
      · rw [if_pos h2]
        have hcol9 : col = 9 := by simpa [SIZE] using h2
        have hrow7 : row ≤ 7 := by
          rcases Nat.lt_or_ge row 8 with h | h
          · omega
          · exfalso
            exact h1 ⟨by simp [SIZE]; omega, h2⟩
        exact ih (row + 1) 0 b (k + 1) (by omega) (by omega) (by omega) hext
      · rw [if_neg h2]
        have hcol8 : col ≤ 8 := by
          rcases Nat.lt_or_ge col 9 with h | h
          · omega
          · exfalso
            exact h2 (by simp [SIZE]; omega)
        by_cases h3 : getCell b row col ≠ 0
        · rw [if_pos h3]
          exact ih row (col + 1) b (k + 1) (by omega) (by omega) (by omega)
            hext
        · rw [if_neg h3]
          push_neg at h3
          exact fillLoop_complete
            (fun b2 k2 => fill_remaining rng fuel row (col + 1) b2 k2)
            S hS row col (by omega) (by omega)
            (fun b2 k2 hext2 =>
              ih row (col + 1) b2 k2 (by omega) (by omega) (by omega) hext2)
            (rng k) b (k + 1) hext h3
            (hrng k _ (solved_mem S hS row col (by omega) (by omega)))

end Board

namespace Board

theorem shaped_fill_box (b : Board) (h : Shaped b) (row col : Nat)
    (nums : List Nat) : Shaped (fill_box b row col nums) := by
  unfold fill_box
  have inner : ∀ (l : List Nat) (i : Nat) (acc : Board), Shaped acc →
      Shaped (l.foldl (fun acc2 j => setCell acc2 (row + i) (col + j)
        (nums.reverse.getD (SUBGRID_SIZE * i + j) 0)) acc) := by
    intro l i
    induction l with
    | nil => exact fun acc h2 => h2
    | cons x xs ih =>
      intro acc h2
      exact ih _ (shaped_setCell acc h2 _ _ _)
  have outer : ∀ (l : List Nat) (acc : Board), Shaped acc →
      Shaped (l.foldl (fun acc i =>
        (List.range SUBGRID_SIZE).foldl (fun acc2 j =>
          setCell acc2 (row + i) (col + j)
            (nums.reverse.getD (SUBGRID_SIZE * i + j) 0)) acc) acc) := by
    intro l
    induction l with
    | nil => exact fun acc h2 => h2
    | cons x xs ih =>
      intro acc h2
      exact ih _ (inner _ _ _ h2)
  exact outer _ b h

theorem shaped_fill_diagonals (b : Board) (h : Shaped b)
    (n0 n1 n2 : List Nat) : Shaped (fill_diagonals b n0 n1 n2) :=
  shaped_fill_box _ (shaped_fill_box _ (shaped_fill_box b h 0 0 n0) 3 3 n1)
    6 6 n2

theorem perm_digits_of_inj_mem (f : Nat → Nat)
    (hinj : ∀ i < 9, ∀ j < 9, f i = f j → i = j)
    (hmem : ∀ i < 9, f i ∈ digits19) :
    ((List.range 9).map f).Perm digits19 := by
  have hnodup : ((List.range 9).map f).Nodup :=
    List.Nodup.map_on
      (fun x hx y hy h =>
        hinj x (List.mem_range.mp hx) y (List.mem_range.mp hy) h)
      (List.nodup_range 9)
  have hsub : (List.range 9).map f ⊆ digits19 := by
    intro v hv
    obtain ⟨i, hi, rfl⟩ := List.mem_map.mp hv
    exact hmem i (List.mem_range.mp hi)
  refine (List.subperm_of_subset hnodup hsub).perm_of_length_le ?_
  simp [digits19]

/-- A full, consistent board over digits 1–9 is a solved board. -/
theorem solvedBoard_of_full (b : Board) (hfull : Full b)
    (hcons : Consistent b) (hvals : ValuesIn19 b) : isSolvedBoard b := by
  have hval : ∀ r < 9, ∀ c < 9, getCell b r c ∈ digits19 := by
    intro r hr c hc
    rcases hvals r hr c hc with h | h
    · exact absurd h (hfull r hr c hc)
    · exact h
  refine ⟨?_, ?_, ?_⟩
  · intro r hr
    unfold rowList
    apply perm_digits_of_inj_mem
    · intro i hi j hj he
      by_contra hne
      exact hcons r hr i hi r hr j hj
        (fun hp => hne ((Prod.mk.injEq .. |>.mp hp).2))
        (Or.inl rfl) (hfull r hr i hi) he
    · exact fun i hi => hval r hr i hi
  · intro c hc
    unfold colList
    apply perm_digits_of_inj_mem
    · intro i hi j hj he
      by_contra hne
      exact hcons i hi c hc j hj c hc
        (fun hp => hne ((Prod.mk.injEq .. |>.mp hp).1))
        (Or.inr (Or.inl rfl)) (hfull i hi c hc) he
    · exact fun i hi => hval i hi c hc
  · intro br hbr bc hbc
    unfold boxList
    apply perm_digits_of_inj_mem
    · intro i hi j hj he
      by_contra hne
      refine hcons (br * 3 + i / 3) (by omega) (bc * 3 + i % 3) (by omega)
        (br * 3 + j / 3) (by omega) (bc * 3 + j % 3) (by omega)
        (fun hp => ?_) ?_ (hfull _ (by omega) _ (by omega)) he
      · have e1 := (Prod.mk.injEq .. |>.mp hp).1
        have e2 := (Prod.mk.injEq .. |>.mp hp).2
        exact hne (by omega)
      · right; right
        constructor <;> omega
    · exact fun i hi => hval _ (by omega) _ (by omega)

/-- `Board::generate` under the library's guarantees (each digit list a
shuffled 1–9) and the seeding guarantee that the diagonally seeded board
can be completed: the result is fully filled and a valid solved board. -/
theorem generate_full_solved (n0 n1 n2 : List Nat) (rng : Nat → List Nat)
    (hrng : ∀ k, (rng k).Perm digits19)
    (hcomp : ∃ S, isSolvedBoard S ∧
      ExtendsTo (fill_diagonals empty n0 n1 n2) S) :
    Full (generate n0 n1 n2 rng) ∧ isSolvedBoard (generate n0 n1 n2 rng) := by
  obtain ⟨S, hS, hext⟩ := hcomp
  have hsh : Shaped (fill_diagonals empty n0 n1 n2) :=
    shaped_fill_diagonals _ shaped_empty n0 n1 n2
  have hcons : Consistent (fill_diagonals empty n0 n1 n2) :=
    consistent_of_extendsTo _ S hS hext
  have hvals : ValuesIn19 (fill_diagonals empty n0 n1 n2) :=
    valuesIn19_of_extendsTo _ S hS hext
  have hcompl : (fill_remaining rng 90 0 0
      (fill_diagonals empty n0 n1 n2) 0).1 = true :=
    fill_remaining_complete rng
      (fun k v hv => (hrng k).mem_iff.mpr hv) S hS 90 0 0 _ 0
      (by omega) (by omega) (by omega) hext
  obtain ⟨-, hcons2, hvals2, -, hfill⟩ :=
    fill_remaining_sound rng (fun k v hv => (hrng k).mem_iff.mp hv)
      90 0 0 (fill_diagonals empty n0 n1 n2) 0 (by omega) (by omega)
      hsh hcons hvals
  have hfull : Full (generate n0 n1 n2 rng) := by
    intro r hr c hc
    exact hfill hcompl r hr c hc (by omega)
  exact ⟨hfull, solvedBoard_of_full _ hfull hcons2 hvals2⟩

end Board

theorem shuffleFirst_perm (d : Nat) : (shuffleFirst d).Perm digits19 := by
  unfold shuffleFirst
  by_cases h : d ∈ digits19
  · rw [if_pos h]
    exact (List.perm_cons_erase h).symm
  · rw [if_neg h]

/-- C2: every board returned by `Board::generate` — under the library
guarantees (each shuffle a permutation of 1–9) and the seeding guarantee
the specification asserts (a diagonally seeded board always admits a
completion, supplied as a hypothesis and discharged concretely in the
witness) — is fully solved: every row, column and 3×3 box is a
permutation of 1–9 and no cell is 0. -/
theorem generate_board_solved :
    ∀ (n0 n1 n2 : List Nat) (rng : Nat → List Nat),
      n0.Perm digits19 → n1.Perm digits19 → n2.Perm digits19 →
      (∀ k, (rng k).Perm digits19) →
      (∃ S, Board.isSolvedBoard S ∧
        Board.ExtendsTo (Board.fill_diagonals Board.empty n0 n1 n2) S) →
      Board.Full (Board.generate n0 n1 n2 rng) ∧
      Board.isSolvedBoard (Board.generate n0 n1 n2 rng) :=
  fun n0 n1 n2 rng _ _ _ hrng hcomp =>
    Board.generate_full_solved n0 n1 n2 rng hrng hcomp

theorem generate_board_solved_witness :
    Board.Full (Board.generate cexBox0 cexBox1 cexBox2 cexRng) ∧
    Board.isSolvedBoard (Board.generate cexBox0 cexBox1 cexBox2 cexRng) :=
  generate_board_solved cexBox0 cexBox1 cexBox2 cexRng
    (by decide) (by decide) (by decide)
    (fun k => shuffleFirst_perm _)
    ⟨wikiBoard, by decide, by decide⟩

/-! ## Claim C3: hole counts -/

namespace Board

/-- One digging step only creates a hole at the processed position. -/
theorem dig_step_zeros (seed p : Board) (hd : Nat × Nat) (r c : Nat)
    (h : getCell
      (let backup := getCell seed hd.1 hd.2
       let dug := setCell p hd.1 hd.2 0
       if count_solutions dug 2 ≠ 1 then setCell dug hd.1 hd.2 backup
       else dug) r c = 0) :
    getCell p r c = 0 ∨ (r, c) = hd := by
  dsimp only at h
  by_cases htest : count_solutions (setCell p hd.1 hd.2 0) 2 ≠ 1
  · rw [if_pos htest] at h
    rw [getCell_setCell] at h
    by_cases h1 : hd.1 = r ∧ hd.1 < (setCell p hd.1 hd.2 0).length ∧
        hd.2 = c ∧ hd.2 < ((setCell p hd.1 hd.2 0).getD hd.1 []).length
    · right
      rw [← h1.1, ← h1.2.2.1]
    · rw [if_neg h1, getCell_setCell] at h
      by_cases h2 : hd.1 = r ∧ hd.1 < p.length ∧ hd.2 = c ∧
          hd.2 < ((p.getD hd.1 []).length)
      · right
        rw [← h2.1, ← h2.2.2.1]
      · rw [if_neg h2] at h
        exact Or.inl h
  · rw [if_neg htest, getCell_setCell] at h
    by_cases h2 : hd.1 = r ∧ hd.1 < p.length ∧ hd.2 = c ∧
        hd.2 < ((p.getD hd.1 []).length)
    · right
      rw [← h2.1, ← h2.2.2.1]
    · rw [if_neg h2] at h
      exact Or.inl h

/-- Holes of the digging loop come from the input board or the processed
positions. -/
theorem generate_puzzle_loop_zeros (seed : Board) :
    ∀ (l : List (Nat × Nat)) (p : Board) (r c : Nat),
      getCell
        (l.foldl
          (fun puzzle pos =>
            let backup := getCell seed pos.1 pos.2
            let dug := setCell puzzle pos.1 pos.2 0
            if count_solutions dug 2 ≠ 1 then
              setCell dug pos.1 pos.2 backup
            else dug)
          p) r c = 0 →
      getCell p r c = 0 ∨ (r, c) ∈ l := by
  intro l
  induction l with
  | nil =>
    intro p r c h
    exact Or.inl h
  | cons hd tl ih =>
    intro p r c h
    rw [List.foldl_cons] at h
    rcases ih _ r c h with h2 | h2
    · rcases dig_step_zeros seed p hd r c h2 with h3 | h3
      · exact Or.inl h3
      · exact Or.inr (h3 ▸ List.mem_cons_self hd tl)
    · exact Or.inr (List.mem_cons_of_mem hd h2)

/-- Every hole of a dug puzzle sits at one of the processed positions. -/
theorem generate_puzzle_zeros (seed : Board) (hfull : Full seed)
    (positions : List (Nat × Nat)) (num_holes : Nat) :
    ∀ r < 9, ∀ c < 9,
      getCell (generate_puzzle seed positions num_holes) r c = 0 →
      (r, c) ∈ positions.take num_holes := by
  intro r hr c hc h
  unfold generate_puzzle at h
  rcases generate_puzzle_loop_zeros seed (positions.take num_holes) seed
      r c h with h2 | h2
  · exact absurd h2 (hfull r hr c hc)
  · exact h2

/-- Counting empty cells through the coordinate map. -/
theorem countEmpty_le_of_zeros (b : Board) (l : List (Nat × Nat))
    (h : ∀ r < 9, ∀ c < 9, getCell b r c = 0 → (r, c) ∈ l) :
    countEmpty b ≤ l.length := by
  unfold countEmpty
  have hnodA : ((List.range 81).filter
      fun i => decide (getCell b (i / 9) (i % 9) = 0)).Nodup :=
    (List.nodup_range 81).filter _
  have hmemA : ∀ i ∈ (List.range 81).filter
      (fun i => decide (getCell b (i / 9) (i % 9) = 0)), i < 81 := by
    intro i hi
    exact List.mem_range.mp (List.mem_filter.mp hi).1
  have hnodM : (((List.range 81).filter
      fun i => decide (getCell b (i / 9) (i % 9) = 0)).map
        fun i => (i / 9, i % 9)).Nodup := by
    refine List.Nodup.map_on ?_ hnodA
    intro x hx y hy he
    have hx81 := hmemA x hx
    have hy81 := hmemA y hy
    have e1 : x / 9 = y / 9 := (Prod.mk.injEq .. |>.mp he).1
    have e2 : x % 9 = y % 9 := (Prod.mk.injEq .. |>.mp he).2
    omega
  have hsub : (((List.range 81).filter
      fun i => decide (getCell b (i / 9) (i % 9) = 0)).map
        fun i => (i / 9, i % 9)) ⊆ l := by
    intro v hv
    obtain ⟨i, hi, rfl⟩ := List.mem_map.mp hv
    have hi81 := hmemA i hi
    have hz : getCell b (i / 9) (i % 9) = 0 :=
      of_decide_eq_true (List.mem_filter.mp hi).2
    exact h (i / 9) (by omega) (i % 9) (by omega) hz
  calc ((List.range 81).filter
      fun i => decide (getCell b (i / 9) (i % 9) = 0)).length
      = (((List.range 81).filter
          fun i => decide (getCell b (i / 9) (i % 9) = 0)).map
            fun i => (i / 9, i % 9)).length := by rw [List.length_map]
    _ ≤ l.length := (List.subperm_of_subset hnodM hsub).length_le

end Board

theorem cexChoose_mem : ∀ l : List Nat, l ≠ [] → cexChoose l ∈ l := by
  intro l hl
  cases l with
  | nil => exact absurd rfl hl
  | cons x xs => exact List.mem_cons_self x xs

/-- The puzzle grid of a generated session has the same empty cells as the
dug board. -/
theorem countEmpty_generate (d : Difficulty) (choose : List Nat → Nat)
    (n0 n1 n2 : List Nat) (rng : Nat → List Nat)
    (positions : List (Nat × Nat)) (now : Nat) :
    Sudoku.countEmpty (Sudoku.generate d choose n0 n1 n2 rng positions now) =
      Board.countEmpty (Board.generate_puzzle (Board.generate n0 n1 n2 rng)
        positions (d.num_holes choose)) := rfl

theorem Board.generate_puzzle_eq_foldl (b : Board)
    (positions : List (Nat × Nat)) (n : Nat) :
    Board.generate_puzzle b positions n =
      (positions.take n).foldl (Board.digStep b) b := rfl

set_option maxRecDepth 100000 in
set_option maxHeartbeats 4000000 in
theorem cex_dig_step1 :
    Board.digStep wikiBoard wikiBoard (0, 3) = cexDigB1 := by rfl

set_option maxRecDepth 100000 in
set_option maxHeartbeats 4000000 in
theorem cex_dig_step2 :
    Board.digStep wikiBoard cexDigB1 (0, 4) = cexDigB2 := by rfl

set_option maxRecDepth 100000 in
set_option maxHeartbeats 4000000 in
theorem cex_dig_step3 :
    Board.digStep wikiBoard cexDigB2 (3, 3) = cexDigB3 := by rfl

set_option maxRecDepth 100000 in
set_option maxHeartbeats 4000000 in
theorem cex_dig_step4 :
    Board.digStep wikiBoard cexDigB3 (3, 4) = cexDigB4 := by rfl

set_option maxRecDepth 100000 in
set_option maxHeartbeats 4000000 in
theorem cex_dig_step5 :
    Board.digStep wikiBoard cexDigB4 (8, 8) = cexDigB5 := by rfl

set_option maxRecDepth 100000 in
set_option maxHeartbeats 4000000 in
theorem cex_dig_step6 :
    Board.digStep wikiBoard cexDigB5 (8, 7) = cexDigB6 := by rfl

set_option maxRecDepth 100000 in
set_option maxHeartbeats 4000000 in
theorem cex_dig_step7 :
    Board.digStep wikiBoard cexDigB6 (8, 6) = cexDigB7 := by rfl

set_option maxRecDepth 100000 in
set_option maxHeartbeats 4000000 in
theorem cex_dig_step8 :
    Board.digStep wikiBoard cexDigB7 (8, 5) = cexDigB8 := by rfl

set_option maxRecDepth 100000 in
set_option maxHeartbeats 4000000 in
theorem cex_dig_step9 :
    Board.digStep wikiBoard cexDigB8 (8, 4) = cexDigB9 := by rfl

set_option maxRecDepth 100000 in
set_option maxHeartbeats 4000000 in
theorem cex_dig_step10 :
    Board.digStep wikiBoard cexDigB9 (8, 3) = cexDigB10 := by rfl

set_option maxRecDepth 100000 in
set_option maxHeartbeats 4000000 in
theorem cex_dig_step11 :
    Board.digStep wikiBoard cexDigB10 (8, 2) = cexDigB11 := by rfl

set_option maxRecDepth 100000 in
set_option maxHeartbeats 4000000 in
theorem cex_dig_step12 :
    Board.digStep wikiBoard cexDigB11 (8, 1) = cexDigB12 := by rfl

set_option maxRecDepth 100000 in
set_option maxHeartbeats 4000000 in
theorem cex_dig_step13 :
    Board.digStep wikiBoard cexDigB12 (8, 0) = cexDigB13 := by rfl

set_option maxRecDepth 100000 in
set_option maxHeartbeats 4000000 in
theorem cex_dig_step14 :
    Board.digStep wikiBoard cexDigB13 (7, 8) = cexDigB14 := by rfl

set_option maxRecDepth 100000 in
set_option maxHeartbeats 4000000 in
theorem cex_dig_step15 :
    Board.digStep wikiBoard cexDigB14 (7, 7) = cexDigB15 := by rfl

set_option maxRecDepth 100000 in
set_option maxHeartbeats 4000000 in
theorem cex_dig_step16 :
    Board.digStep wikiBoard cexDigB15 (7, 6) = cexDigB16 := by rfl

set_option maxRecDepth 100000 in
set_option maxHeartbeats 4000000 in
theorem cex_dig_step17 :
    Board.digStep wikiBoard cexDigB16 (7, 5) = cexDigB17 := by rfl

set_option maxRecDepth 100000 in
set_option maxHeartbeats 4000000 in
theorem cex_dig_step18 :
    Board.digStep wikiBoard cexDigB17 (7, 4) = cexDigB18 := by rfl

set_option maxRecDepth 100000 in
set_option maxHeartbeats 4000000 in
theorem cex_dig_step19 :
    Board.digStep wikiBoard cexDigB18 (7, 3) = cexDigB19 := by rfl

set_option maxRecDepth 100000 in
set_option maxHeartbeats 4000000 in
theorem cex_dig_step20 :
    Board.digStep wikiBoard cexDigB19 (7, 2) = cexDigB20 := by rfl

set_option maxRecDepth 100000 in
set_option maxHeartbeats 4000000 in
theorem cex_dig_step21 :
    Board.digStep wikiBoard cexDigB20 (7, 1) = cexDigB21 := by rfl

set_option maxRecDepth 100000 in
set_option maxHeartbeats 4000000 in
theorem cex_dig_step22 :
    Board.digStep wikiBoard cexDigB21 (7, 0) = cexDigB22 := by rfl

set_option maxRecDepth 100000 in
set_option maxHeartbeats 4000000 in
theorem cex_dig_step23 :
    Board.digStep wikiBoard cexDigB22 (6, 8) = cexDigB23 := by rfl

set_option maxRecDepth 100000 in
set_option maxHeartbeats 4000000 in
theorem cex_dig_step24 :
    Board.digStep wikiBoard cexDigB23 (6, 7) = cexDigB24 := by rfl

set_option maxRecDepth 100000 in
set_option maxHeartbeats 4000000 in
theorem cex_dig_step25 :
    Board.digStep wikiBoard cexDigB24 (6, 6) = cexDigB25 := by rfl

set_option maxRecDepth 100000 in
set_option maxHeartbeats 4000000 in
theorem cex_dig_step26 :
    Board.digStep wikiBoard cexDigB25 (6, 5) = cexDigB26 := by rfl

set_option maxRecDepth 100000 in
set_option maxHeartbeats 4000000 in
theorem cex_dig_step27 :
    Board.digStep wikiBoard cexDigB26 (6, 4) = cexDigB27 := by rfl

set_option maxRecDepth 100000 in
set_option maxHeartbeats 4000000 in
theorem cex_dig_step28 :
    Board.digStep wikiBoard cexDigB27 (6, 3) = cexDigB28 := by rfl

set_option maxRecDepth 100000 in
set_option maxHeartbeats 4000000 in
theorem cex_dig_step29 :
    Board.digStep wikiBoard cexDigB28 (6, 2) = cexDigB29 := by rfl

set_option maxRecDepth 100000 in
set_option maxHeartbeats 4000000 in
theorem cex_dig_step30 :
    Board.digStep wikiBoard cexDigB29 (6, 1) = cexDigB30 := by rfl

set_option maxRecDepth 100000 in
set_option maxHeartbeats 4000000 in
theorem cex_dig_step31 :
    Board.digStep wikiBoard cexDigB30 (6, 0) = cexDigB31 := by rfl

set_option maxRecDepth 100000 in
set_option maxHeartbeats 4000000 in
theorem cex_dig_step32 :
    Board.digStep wikiBoard cexDigB31 (5, 8) = cexDigB32 := by rfl

set_option maxRecDepth 100000 in
set_option maxHeartbeats 4000000 in
theorem cex_dig_step33 :
    Board.digStep wikiBoard cexDigB32 (5, 7) = cexDigB33 := by rfl

set_option maxRecDepth 100000 in
set_option maxHeartbeats 4000000 in
theorem cex_dig_step34 :
    Board.digStep wikiBoard cexDigB33 (5, 6) = cexDigB34 := by rfl

set_option maxRecDepth 100000 in
set_option maxHeartbeats 4000000 in
theorem cex_dig_step35 :
    Board.digStep wikiBoard cexDigB34 (5, 5) = cexDigB35 := by rfl

set_option maxRecDepth 100000 in
set_option maxHeartbeats 4000000 in
theorem cex_dig_step36 :
    Board.digStep wikiBoard cexDigB35 (5, 4) = cexDigB36 := by rfl

set_option maxRecDepth 100000 in
set_option maxHeartbeats 4000000 in
theorem cex_dig_step37 :
    Board.digStep wikiBoard cexDigB36 (5, 3) = cexDigB37 := by rfl

set_option maxRecDepth 100000 in
set_option maxHeartbeats 4000000 in
theorem cex_dig_step38 :
    Board.digStep wikiBoard cexDigB37 (5, 2) = cexDigB38 := by rfl

set_option maxRecDepth 100000 in
set_option maxHeartbeats 4000000 in
theorem cex_dig_step39 :
    Board.digStep wikiBoard cexDigB38 (5, 1) = cexDigB39 := by rfl

set_option maxRecDepth 100000 in
set_option maxHeartbeats 4000000 in
theorem cex_dig_step40 :
    Board.digStep wikiBoard cexDigB39 (5, 0) = cexDigB40 := by rfl

set_option maxRecDepth 100000 in
set_option maxHeartbeats 4000000 in
theorem cex_dig_step41 :
    Board.digStep wikiBoard cexDigB40 (4, 8) = cexDigB41 := by rfl

set_option maxRecDepth 100000 in
set_option maxHeartbeats 4000000 in
theorem cex_dig_step42 :
    Board.digStep wikiBoard cexDigB41 (4, 7) = cexDigB42 := by rfl

set_option maxRecDepth 100000 in
set_option maxHeartbeats 4000000 in
theorem cex_dig_step43 :
    Board.digStep wikiBoard cexDigB42 (4, 6) = cexDigB43 := by rfl

set_option maxRecDepth 100000 in
set_option maxHeartbeats 4000000 in
theorem cex_dig_step44 :
    Board.digStep wikiBoard cexDigB43 (4, 5) = cexDigB44 := by rfl

set_option maxRecDepth 100000 in
set_option maxHeartbeats 4000000 in
theorem cex_dig_step45 :
    Board.digStep wikiBoard cexDigB44 (4, 4) = cexDigB45 := by rfl
set_option maxRecDepth 10000 in
theorem cex_take :
    cexPositions.take 45 = ([(0, 3), (0, 4), (3, 3), (3, 4), (8, 8), (8, 7), (8, 6), (8, 5), (8, 4), (8, 3), (8, 2), (8, 1), (8, 0), (7, 8), (7, 7), (7, 6), (7, 5), (7, 4), (7, 3), (7, 2), (7, 1), (7, 0), (6, 8), (6, 7), (6, 6), (6, 5), (6, 4), (6, 3), (6, 2), (6, 1), (6, 0), (5, 8), (5, 7), (5, 6), (5, 5), (5, 4), (5, 3), (5, 2), (5, 1), (5, 0), (4, 8), (4, 7), (4, 6), (4, 5), (4, 4)] : List (Nat × Nat)) := by rfl

theorem cex_dig_chain :
    Board.generate_puzzle wikiBoard cexPositions 45 = cexDigB45 := by
  rw [Board.generate_puzzle_eq_foldl, cex_take]
  rw [List.foldl_cons, cex_dig_step1]
  rw [List.foldl_cons, cex_dig_step2]
  rw [List.foldl_cons, cex_dig_step3]
  rw [List.foldl_cons, cex_dig_step4]
  rw [List.foldl_cons, cex_dig_step5]
  rw [List.foldl_cons, cex_dig_step6]
  rw [List.foldl_cons, cex_dig_step7]
  rw [List.foldl_cons, cex_dig_step8]
  rw [List.foldl_cons, cex_dig_step9]
  rw [List.foldl_cons, cex_dig_step10]
  rw [List.foldl_cons, cex_dig_step11]
  rw [List.foldl_cons, cex_dig_step12]
  rw [List.foldl_cons, cex_dig_step13]
  rw [List.foldl_cons, cex_dig_step14]
  rw [List.foldl_cons, cex_dig_step15]
  rw [List.foldl_cons, cex_dig_step16]
  rw [List.foldl_cons, cex_dig_step17]
  rw [List.foldl_cons, cex_dig_step18]
  rw [List.foldl_cons, cex_dig_step19]
  rw [List.foldl_cons, cex_dig_step20]
  rw [List.foldl_cons, cex_dig_step21]
  rw [List.foldl_cons, cex_dig_step22]
  rw [List.foldl_cons, cex_dig_step23]
  rw [List.foldl_cons, cex_dig_step24]
  rw [List.foldl_cons, cex_dig_step25]
  rw [List.foldl_cons, cex_dig_step26]
  rw [List.foldl_cons, cex_dig_step27]
  rw [List.foldl_cons, cex_dig_step28]
  rw [List.foldl_cons, cex_dig_step29]
  rw [List.foldl_cons, cex_dig_step30]
  rw [List.foldl_cons, cex_dig_step31]
  rw [List.foldl_cons, cex_dig_step32]
  rw [List.foldl_cons, cex_dig_step33]
  rw [List.foldl_cons, cex_dig_step34]
  rw [List.foldl_cons, cex_dig_step35]
  rw [List.foldl_cons, cex_dig_step36]
  rw [List.foldl_cons, cex_dig_step37]
  rw [List.foldl_cons, cex_dig_step38]
  rw [List.foldl_cons, cex_dig_step39]
  rw [List.foldl_cons, cex_dig_step40]
  rw [List.foldl_cons, cex_dig_step41]
  rw [List.foldl_cons, cex_dig_step42]
  rw [List.foldl_cons, cex_dig_step43]
  rw [List.foldl_cons, cex_dig_step44]
  rw [List.foldl_cons, cex_dig_step45]
  rfl

set_option maxRecDepth 100000 in
set_option maxHeartbeats 4000000 in
theorem cex_generate_eq :
    Board.generate cexBox0 cexBox1 cexBox2 cexRng = wikiBoard := by rfl

theorem cex_num_holes :
    Difficulty.num_holes Difficulty.Easy cexChoose = 45 := rfl

theorem cex_countEmpty :
    Sudoku.countEmpty
      (Sudoku.generate Difficulty.Easy cexChoose cexBox0 cexBox1 cexBox2
        cexRng cexPositions 0) = 37 := by
  rw [countEmpty_generate, cex_generate_eq, cex_num_holes, cex_dig_chain]
  decide


/-- C3 (amended): `num_holes` is always drawn inside the stated range, and
the generated puzzle has at most `num_holes` empty cells — possibly fewer,
because digs that break uniqueness are reverted, so the stated lower bound
need not hold (see the counterexample). -/
theorem session_holes_at_most_num_holes :
    ∀ (d : Difficulty) (choose : List Nat → Nat) (n0 n1 n2 : List Nat)
      (rng : Nat → List Nat) (positions : List (Nat × Nat)) (now : Nat),
      (∀ l, l ≠ [] → choose l ∈ l) →
      n0.Perm digits19 → n1.Perm digits19 → n2.Perm digits19 →
      (∀ k, (rng k).Perm digits19) →
      positions.Perm allCoords →
      (∃ S, Board.isSolvedBoard S ∧
        Board.ExtendsTo (Board.fill_diagonals Board.empty n0 n1 n2) S) →
      Difficulty.holesLo d ≤ d.num_holes choose ∧
      d.num_holes choose ≤ Difficulty.holesHi d ∧
      Sudoku.countEmpty
          (Sudoku.generate d choose n0 n1 n2 rng positions now) ≤
        d.num_holes choose := by
  intro d choose n0 n1 n2 rng positions now hchoose h0 h1 h2 hrng hpos hcomp
  have hrange : d.num_holes choose ∈
      List.range' (Difficulty.holesLo d) 5 := by
    cases d <;> exact hchoose _ (by decide)
  have hbounds := List.mem_range'.mp hrange
  refine ⟨by obtain ⟨i, hi, he⟩ := hbounds; omega,
    by obtain ⟨i, hi, he⟩ := hbounds; cases d <;> simp [Difficulty.holesLo,
      Difficulty.holesHi] at he ⊢ <;> omega, ?_⟩
  have hfull : Board.Full (Board.generate n0 n1 n2 rng) :=
    (Board.generate_full_solved n0 n1 n2 rng hrng hcomp).1
  rw [countEmpty_generate]
  calc Board.countEmpty (Board.generate_puzzle (Board.generate n0 n1 n2 rng)
        positions (d.num_holes choose))
      ≤ (positions.take (d.num_holes choose)).length :=
        Board.countEmpty_le_of_zeros _ _
          (Board.generate_puzzle_zeros _ hfull positions _)
    _ ≤ d.num_holes choose := by
        rw [List.length_take]
        omega

theorem session_holes_at_most_num_holes_witness :
    Difficulty.holesLo Difficulty.Easy ≤
      Difficulty.num_holes Difficulty.Easy cexChoose ∧
    Difficulty.num_holes Difficulty.Easy cexChoose ≤
      Difficulty.holesHi Difficulty.Easy ∧
    Sudoku.countEmpty
        (Sudoku.generate Difficulty.Easy cexChoose cexBox0 cexBox1 cexBox2
          cexRng cexPositions 0) ≤
      Difficulty.num_holes Difficulty.Easy cexChoose :=
  session_holes_at_most_num_holes Difficulty.Easy cexChoose cexBox0 cexBox1
    cexBox2 cexRng cexPositions 0 cexChoose_mem (by decide) (by decide)
    (by decide) (fun _ => shuffleFirst_perm _) (by decide)
    ⟨wikiBoard, by decide, by decide⟩

/-- C3 counterexample: a run of session generation at difficulty Easy
(all randomness hypotheses satisfied) in which 8 of the 45 attempted digs
are reverted, so the puzzle ends with 37 empty cells — below the stated
lower bound 45.  The number of empty cells is therefore not always within
the configured range. -/
theorem session_holes_below_range :
    (∀ l : List Nat, l ≠ [] → cexChoose l ∈ l) ∧
    cexBox0.Perm digits19 ∧ cexBox1.Perm digits19 ∧ cexBox2.Perm digits19 ∧
    (∀ k, (cexRng k).Perm digits19) ∧
    cexPositions.Perm allCoords ∧
    (∃ S, Board.isSolvedBoard S ∧
      Board.ExtendsTo
        (Board.fill_diagonals Board.empty cexBox0 cexBox1 cexBox2) S) ∧
    Sudoku.countEmpty
      (Sudoku.generate Difficulty.Easy cexChoose cexBox0 cexBox1 cexBox2
        cexRng cexPositions 0) = 37 ∧
    ¬ (Difficulty.holesLo Difficulty.Easy ≤
        Sudoku.countEmpty
          (Sudoku.generate Difficulty.Easy cexChoose cexBox0 cexBox1 cexBox2
            cexRng cexPositions 0)) := by
  refine ⟨cexChoose_mem, by decide, by decide, by decide,
    fun _ => shuffleFirst_perm _, by decide,
    ⟨wikiBoard, by decide, by decide⟩, cex_countEmpty, ?_⟩
  rw [cex_countEmpty]
  decide

/-! ## Claims C6 and C8: update_cell and complete -/

theorem Sudoku.is_running_iff (s : Sudoku) :
    s.is_running = true ↔ s.state = GameState.Running := by
  simp [Sudoku.is_running]

theorem Sudoku.is_solved_iff (s : Sudoku) :
    s.is_solved = true ↔
      ∀ y < 9, ∀ x < 9, (s.grid y x).value = s.solution y x := by
  simp [Sudoku.is_solved, List.all_eq_true, List.mem_range]

/-- C6: `update_cell` is a no-op unless the session is running and the
cell is writable; otherwise it records the old value as a `Move`, writes
the new value with the checked state cleared, and transitions to `Won`
(freezing the elapsed accumulator) exactly when the written grid matches
the solution everywhere. -/
theorem update_cell_spec :
    ∀ (s : Sudoku) (x y value now : Nat),
      (¬ (s.is_running = true ∧ s.writable x y = true) →
        s.update_cell x y value now = s) ∧
      (s.is_running = true → s.writable x y = true →
        (s.update_cell x y value now).grid =
            Sudoku.updateGrid s.grid y x
              (Cell.uncheck ⟨value, (s.grid y x).flags⟩) ∧
        (s.update_cell x y value now).movements =
            ⟨x, y, (s.grid y x).value⟩ :: s.movements ∧
        (s.update_cell x y value now).solution = s.solution ∧
        (s.update_cell x y value now).checks = s.checks ∧
        (s.update_cell x y value now).hints = s.hints ∧
        (s.update_cell x y value now).start = s.start ∧
        (s.update_cell x y value now).difficulty = s.difficulty ∧
        ((s.update_cell x y value now).state = GameState.Won ↔
          (∀ y2 < 9, ∀ x2 < 9,
            (Sudoku.updateGrid s.grid y x
                (Cell.uncheck ⟨value, (s.grid y x).flags⟩) y2 x2).value =
              s.solution y2 x2)) ∧
        ((∀ y2 < 9, ∀ x2 < 9,
            (Sudoku.updateGrid s.grid y x
                (Cell.uncheck ⟨value, (s.grid y x).flags⟩) y2 x2).value =
              s.solution y2 x2) →
          (s.update_cell x y value now).elapsed = s.elapsedAt now) ∧
        (¬ (∀ y2 < 9, ∀ x2 < 9,
            (Sudoku.updateGrid s.grid y x
                (Cell.uncheck ⟨value, (s.grid y x).flags⟩) y2 x2).value =
              s.solution y2 x2) →
          (s.update_cell x y value now).state = GameState.Running ∧
          (s.update_cell x y value now).elapsed = s.elapsed)) := by
  intro s x y value now
  constructor
  · intro h
    have hb : (s.is_running && s.writable x y) = false := by
      cases hr : s.is_running <;> cases hw : s.writable x y <;> simp_all
    simp [Sudoku.update_cell, hb]
  · intro hrun hwrit
    have hb : (s.is_running && s.writable x y) = true := by simp [hrun, hwrit]
    have hstate : s.state = GameState.Running := (Sudoku.is_running_iff s).mp hrun
    simp only [Sudoku.update_cell, hb, not_true, if_false, Bool.true_eq_false,
      ite_false]
    set s1 : Sudoku :=
      { s with
        grid := Sudoku.updateGrid s.grid y x
          (Cell.uncheck ⟨value, (s.grid y x).flags⟩),
        movements := ⟨x, y, (s.grid y x).value⟩ :: s.movements } with hs1
    have hsolved : s1.is_solved = true ↔
        ∀ y2 < 9, ∀ x2 < 9,
          (Sudoku.updateGrid s.grid y x
              (Cell.uncheck ⟨value, (s.grid y x).flags⟩) y2 x2).value =
            s.solution y2 x2 := Sudoku.is_solved_iff s1
    by_cases hs : s1.is_solved = true
    · rw [if_pos hs]
      refine ⟨rfl, rfl, rfl, rfl, rfl, rfl, rfl, ?_, ?_, ?_⟩
      · exact iff_of_true rfl (hsolved.mp hs)
      · intro _
        show s1.elapsedAt now = s.elapsedAt now
        have h1 : s1.state = GameState.Running := hstate
        simp [Sudoku.elapsedAt, h1, hstate]
      · intro hn
        exact absurd (hsolved.mp hs) hn
    · rw [if_neg hs]
      refine ⟨rfl, rfl, rfl, rfl, rfl, rfl, rfl, ?_, ?_, ?_⟩
      · refine iff_of_false ?_ (fun hall => hs (hsolved.mpr hall))
        intro hw
        have h1 : s1.state = GameState.Running := hstate
        rw [h1] at hw
        exact GameState.noConfusion hw
      · intro hall
        exact absurd (hsolved.mpr hall) hs
      · intro _
        exact ⟨hstate, rfl⟩

theorem update_cell_spec_witness :
    (demoSession.update_cell 0 0 5 200).state = GameState.Won ∧
    (demoSession.update_cell 0 0 5 200).movements =
      [⟨0, 0, (demoSession.grid 0 0).value⟩] ∧
    (demoSession.update_cell 0 0 5 200).elapsed = demoSession.elapsedAt 200 ∧
    solvedSession.update_cell 0 0 5 200 = solvedSession := by
  obtain ⟨hno, hyes⟩ := update_cell_spec demoSession 0 0 5 200
  obtain ⟨hg, hm, -, -, -, -, -, hwon, helapsed, -⟩ :=
    hyes (by decide) (by decide)
  refine ⟨hwon.mpr (by decide), hm, helapsed (by decide), ?_⟩
  exact (update_cell_spec solvedSession 0 0 5 200).1 (by decide)

/-- C8 (amended): `complete` is a no-op unless the session is running;
while running it fills every writable cell with its solution value and
marks it checked, it marks the cell correct exactly when the previous
entry was absent, matched the solution, or the cell's correct flag was
already set (`Cell::check` only ORs flag bits, so a stale correct flag
survives — see the counterexample), it leaves other cells untouched, and
it moves to `Solved` with the elapsed accumulator frozen. -/
theorem complete_spec :
    ∀ (s : Sudoku) (now : Nat),
      (s.is_running = false → s.complete now = s) ∧
      (s.is_running = true →
        (s.complete now).state = GameState.Solved ∧
        (s.complete now).elapsed = s.elapsedAt now ∧
        (s.complete now).movements = s.movements ∧
        (s.complete now).checks = s.checks ∧
        (s.complete now).hints = s.hints ∧
        (s.complete now).start = s.start ∧
        (∀ y < 9, ∀ x < 9, (s.grid y x).writable = true →
          ((s.complete now).grid y x).value = s.solution y x ∧
          ((s.complete now).grid y x).checked = true ∧
          (((s.complete now).grid y x).correct = true ↔
            ((s.grid y x).value = 0 ∨ (s.grid y x).value = s.solution y x ∨
              (s.grid y x).correct = true))) ∧
        (∀ y x, ¬ (y < 9 ∧ x < 9 ∧ (s.grid y x).writable = true) →
          (s.complete now).grid y x = s.grid y x)) := by
  intro s now
  constructor
  · intro hrun
    rw [Sudoku.complete, if_pos (by simp [hrun])]
  · intro hrun
    rw [Sudoku.complete, if_neg (by simp [hrun])]
    refine ⟨rfl, rfl, rfl, rfl, rfl, rfl, ?_, ?_⟩
    · intro y hy x hx hw
      have hcond : y < 9 ∧ x < 9 ∧ s.writable x y = true :=
        ⟨hy, hx, hw⟩
      refine ⟨?_, ?_, ?_⟩
      · simp only [if_pos hcond, Cell.value_check]
      · simp only [if_pos hcond, Cell.checked_check]
      · simp only [if_pos hcond, Cell.correct_check]
        constructor
        · intro h
          rcases Bool.or_eq_true_iff.mp h with h | h
          · rcases of_decide_eq_true h with h | h
            · exact Or.inl h
            · exact Or.inr (Or.inl h)
          · exact Or.inr (Or.inr h)
        · intro h
          rcases h with h | h | h
          · exact Bool.or_eq_true_iff.mpr (Or.inl (decide_eq_true (Or.inl h)))
          · exact Bool.or_eq_true_iff.mpr (Or.inl (decide_eq_true (Or.inr h)))
          · exact Bool.or_eq_true_iff.mpr (Or.inr h)
    · intro y x hn
      exact if_neg hn

theorem complete_spec_witness :
    solvedSession.complete 300 = solvedSession ∧
    (demoSession.complete 300).state = GameState.Solved ∧
    (demoSession.complete 300).elapsed = demoSession.elapsedAt 300 ∧
    ((demoSession.complete 300).grid 0 0).value = demoSession.solution 0 0 ∧
    ((demoSession.complete 300).grid 0 0).checked = true ∧
    (((demoSession.complete 300).grid 0 0).correct = true ↔
      ((demoSession.grid 0 0).value = 0 ∨
        (demoSession.grid 0 0).value = demoSession.solution 0 0 ∨
        (demoSession.grid 0 0).correct = true)) ∧
    (demoSession.complete 300).grid 1 1 = demoSession.grid 1 1 := by
  obtain ⟨h1, h2, -, -, -, -, hwrit, hother⟩ :=
    (complete_spec demoSession 300).2 (by decide)
  obtain ⟨hv, hc, hcor⟩ := hwrit 0 (by decide) 0 (by decide) (by decide)
  exact ⟨(complete_spec solvedSession 300).1 (by decide),
    h1, h2, hv, hc, hcor, hother 1 1 (by decide)⟩

/-- C8 counterexample: a session reachable through the public interface —
enter a wrong value at (0,0), overwrite it with the right one, run
`check` (which marks the cell checked-correct), then `undo_last_move`
(which, as in the source, restores only the value and leaves the flag
bits untouched) — carries a stale correct flag: its cell (0,0) is
writable and holds a non-empty entry that does not match the solution,
yet `complete` marks that cell checked *and* correct, contradicting the
claim's "checked-incorrect otherwise". -/
theorem complete_stale_correct_flag :
    cexC8Stale.is_running = true ∧
    (cexC8Stale.grid 0 0).writable = true ∧
    (cexC8Stale.grid 0 0).value ≠ 0 ∧
    (cexC8Stale.grid 0 0).value ≠ cexC8Stale.solution 0 0 ∧
    ((cexC8Stale.complete 200).grid 0 0).value = cexC8Stale.solution 0 0 ∧
    ((cexC8Stale.complete 200).grid 0 0).checked = true ∧
    ((cexC8Stale.complete 200).grid 0 0).correct = true := by
  decide
